import Mathlib

/-!
Shallow embedding of the temporal-ecommerce workflow logic
(order saga, ML training with checkpoints and seeded RNG, codebase
analysis with a budget gate, multi-agent coordination), together with
theorems settling claims C1-C10 about it.

Modelling conventions, stated once:
- Every activity call is modelled by an environment record providing the
  call's visible outcome as `Except String result`.  The durable-execution
  substrate guarantees that once a call has visibly succeeded, replay
  reproduces the same value, so a pure outcome oracle is a faithful model
  of what the orchestration logic observes.
- A signal slot is modelled by the payload the corresponding
  condition-wait observes at its suspension point (`none` meaning the wait
  timed out with no signal), and the cancel flag by the index of the first
  observation point at which the flag reads true (`cancelledAt`).
- Wall-clock fields (createdAt, updatedAt, Date.now timestamps, training
  durations) and input payload fields that the control logic never reads
  (item lists, addresses, hyperparameter payloads) are omitted: activity
  results come from the environment, so pass-through payloads are inert.
- Notification-style activities (sendNotification, notifyUser,
  emitProgress, publishProgress) are recorded as trace events; their
  own results are never read by the control logic, and no claim concerns
  their failure, so they are modelled as always completing.
- JavaScript truthiness quirks are modelled explicitly: `x || d` on a
  number is `jsOrQ` (0 is falsy), on a string `jsOrStr` ("" is falsy);
  `%` on numbers is truncated remainder (`Int.tmod`).
-/

deriving instance DecidableEq for Except

/-- The cooperative cancellation flag: the cancel signal handler sets a
boolean which the workflow code polls at explicit check points.  The
flag, once set, stays set; `cancelTime = some t` means the flag reads
true at every check point with index at least `t`. -/
def cancelledAt (cancelTime : Option Nat) (point : Nat) : Bool :=
  match cancelTime with
  | some t => decide (t ≤ point)
  | none => false

/-- JavaScript `x || dflt` for an optional number: 0 is falsy. -/
def jsOrQ (v : Option ℚ) (dflt : ℚ) : ℚ :=
  match v with
  | some x => if x = 0 then dflt else x
  | none => dflt

/-- JavaScript `x || dflt` for an optional string: the empty string is falsy. -/
def jsOrStr (v : Option String) (dflt : String) : String :=
  match v with
  | some s => if s = "" then dflt else s
  | none => dflt

namespace Order

/-- Input of orderWorkflow (src/workflows/order-workflow.ts); the fields
the control logic reads.  `items`, `paymentMethod`, `shippingAddress`
are only forwarded to activities, whose results come from the
environment, so they are omitted. -/
structure OrderInput where
  orderId : String
  customerId : String
  totalAmount : ℚ
deriving DecidableEq

/-- The `status` values assigned by orderWorkflow. -/
inductive OrderStatus
  | pending
  | inventoryReserved
  | paymentProcessing
  | paymentCompleted
  | awaitingApproval
  | rejected
  | approved
  | shipmentCreated
  | shipped
  | completed
  | compensating
  | failed
deriving DecidableEq

/-- Payload of the approveOrder signal. -/
structure ApprovalDecision where
  approved : Bool
  approvedBy : Option String := none
  reason : Option String := none
deriving DecidableEq

/-- Result of reserveInventory that the workflow reads. -/
structure Reservation where
  reservationId : String
deriving DecidableEq

/-- Result of processPayment that the workflow reads. -/
structure Payment where
  paymentId : String
deriving DecidableEq

/-- Result of createShipment that the workflow reads. -/
structure Shipment where
  shipmentId : String
  trackingNumber : String
deriving DecidableEq

/-- The OrderState record of the workflow (wall-clock fields omitted). -/
structure OrderState where
  status : OrderStatus
  inventoryReserved : Bool
  paymentProcessed : Bool
  shipmentCreated : Bool
  reservationId : Option String
  paymentId : Option String
  shipmentId : Option String
  trackingNumber : Option String
  rejectedReason : Option String
  approvedBy : Option String
deriving DecidableEq

/-- Environment of one orderWorkflow execution: activity outcomes and
signal observations.  `approvalObserved` is what the 24h condition-wait
on the approval slot observes; `cancelAt` gives the first cancellation
check point (0: after reserve, 1: after payment, 2: after the approval
block, 3 or more: only after all checks, e.g. during the 7-day tail) at
which the cancel flag reads true. -/
structure OrderEnv where
  reserveRes : Except String Reservation
  payRes : Except String Payment
  shipRes : Except String Shipment
  approvalObserved : Option ApprovalDecision
  cancelAt : Option Nat
  cancelShipmentRes : Except String Unit
  refundPaymentRes : Except String Unit
  releaseInventoryRes : Except String Unit
deriving DecidableEq

/-- One compensating activity call. -/
inductive CompCall
  | cancelShipment (shipmentId : String)
  | refundPayment (paymentId : String)
  | releaseInventory (reservationId : String)
deriving DecidableEq

/-- Observable result of one orderWorkflow execution: the outcome as seen
by the caller (ok value or re-thrown error), the final in-memory state,
the sequence of `state.status` assignments, the compensating calls made
(in call order), and the compensation errors that were caught and
logged. -/
structure OrderResult where
  outcome : Except String OrderState
  finalState : OrderState
  statusHistory : List OrderStatus
  comps : List CompCall
  compErrors : List String
deriving DecidableEq

/-- The error list a single best-effort compensating call contributes:
its failure is caught and logged, never re-thrown. -/
def compErrsOf (res : Except String Unit) : List String :=
  match res with
  | .ok _ => []
  | .error e => [e]

/-- The compensation block of orderWorkflow (the nonCancellable scope):
cancel the shipment, refund the payment, release the inventory, each
only if its correlation id was recorded, each in its own try/catch so a
failure is logged and swallowed. -/
def compensate (env : OrderEnv) (shipmentId paymentId reservationId : Option String) :
    List CompCall × List String :=
  let s : List CompCall × List String :=
    match shipmentId with
    | some sid => ([CompCall.cancelShipment sid], compErrsOf env.cancelShipmentRes)
    | none => ([], [])
  let p : List CompCall × List String :=
    match paymentId with
    | some pid => ([CompCall.refundPayment pid], compErrsOf env.refundPaymentRes)
    | none => ([], [])
  let r : List CompCall × List String :=
    match reservationId with
    | some rid => ([CompCall.releaseInventory rid], compErrsOf env.releaseInventoryRes)
    | none => ([], [])
  (s.1 ++ p.1 ++ r.1, s.2 ++ p.2 ++ r.2)

/-- The catch block of orderWorkflow: run the compensations for the
recorded correlation ids, set status to compensating then failed, and
re-throw the original error. -/
def orderFail (env : OrderEnv) (err : String) (st : OrderState)
    (hist : List OrderStatus) (sid pid rid : Option String) : OrderResult :=
  let comps := compensate env sid pid rid
  { outcome := .error err
    finalState := { st with status := .failed }
    statusHistory := hist ++ [.compensating, .failed]
    comps := comps.1
    compErrors := comps.2 }

/-- Steps 4-5 of orderWorkflow: the post-approval cancellation check,
shipment creation, and the 7-day wait-then-complete tail.  Note that,
as in the source, the cancel flag is not consulted after the check that
precedes shipment creation: the tail `sleep` is a plain timer. -/
def orderShip (env : OrderEnv) (st : OrderState) (hist : List OrderStatus)
    (pid rid : String) : OrderResult :=
  if cancelledAt env.cancelAt 2 then
    orderFail env "Order cancelled by customer" st hist none (some pid) (some rid)
  else
    let st1 := { st with status := OrderStatus.shipmentCreated }
    let h1 := hist ++ [OrderStatus.shipmentCreated]
    match env.shipRes with
    | .error e => orderFail env e st1 h1 none (some pid) (some rid)
    | .ok ship =>
      let st2 := { st1 with
                   shipmentCreated := true
                   shipmentId := some ship.shipmentId
                   trackingNumber := some ship.trackingNumber
                   status := OrderStatus.shipped }
      let h2 := h1 ++ [OrderStatus.shipped]
      let st3 := { st2 with status := OrderStatus.completed }
      { outcome := .ok st3
        finalState := st3
        statusHistory := h2 ++ [OrderStatus.completed]
        comps := []
        compErrors := [] }

/-- Shallow embedding of orderWorkflow: reserve inventory, process
payment, await approval for orders above 5000, create shipment,
auto-complete; on any failure or observed cancellation, run the saga
compensation (orderFail) and re-throw. -/
def orderWorkflow (input : OrderInput) (env : OrderEnv) : OrderResult :=
  let st0 : OrderState :=
    { status := .pending, inventoryReserved := false, paymentProcessed := false,
      shipmentCreated := false, reservationId := none, paymentId := none,
      shipmentId := none, trackingNumber := none, rejectedReason := none,
      approvedBy := none }
  match env.reserveRes with
  | .error e => orderFail env e st0 [.pending] none none none
  | .ok resv =>
    let rid := resv.reservationId
    let st1 := { st0 with
                 inventoryReserved := true
                 reservationId := some rid
                 status := OrderStatus.inventoryReserved }
    let h1 : List OrderStatus := [.pending, .inventoryReserved]
    if cancelledAt env.cancelAt 0 then
      orderFail env "Order cancelled by customer" st1 h1 none none (some rid)
    else
      let st2 := { st1 with status := OrderStatus.paymentProcessing }
      let h2 := h1 ++ [OrderStatus.paymentProcessing]
      match env.payRes with
      | .error e => orderFail env e st2 h2 none none (some rid)
      | .ok pay =>
        let pid := pay.paymentId
        let st3 := { st2 with
                     paymentProcessed := true
                     paymentId := some pid
                     status := OrderStatus.paymentCompleted }
        let h3 := h2 ++ [OrderStatus.paymentCompleted]
        if cancelledAt env.cancelAt 1 then
          orderFail env "Order cancelled by customer" st3 h3 none (some pid) (some rid)
        else
          let requiresApproval := decide (input.totalAmount > 5000)
          if requiresApproval then
            let st4 := { st3 with status := OrderStatus.awaitingApproval }
            let h4 := h3 ++ [OrderStatus.awaitingApproval]
            match env.approvalObserved with
            | none =>
              let st5 := { st4 with
                           status := OrderStatus.rejected
                           rejectedReason := some "Approval timeout" }
              let h5 := h4 ++ [OrderStatus.rejected]
              orderFail env ("Order rejected: " ++ "Approval timeout") st5 h5
                none (some pid) (some rid)
            | some d =>
              if d.approved then
                let st5 := { st4 with
                             approvedBy := d.approvedBy
                             status := OrderStatus.approved }
                let h5 := h4 ++ [OrderStatus.approved]
                orderShip env st5 h5 pid rid
              else
                let reason := jsOrStr d.reason "Approval timeout"
                let st5 := { st4 with
                             status := OrderStatus.rejected
                             rejectedReason := some reason }
                let h5 := h4 ++ [OrderStatus.rejected]
                orderFail env ("Order rejected: " ++ reason) st5 h5
                  none (some pid) (some rid)
          else
            orderShip env st3 h3 pid rid

/-- The reverse-order compensation list determined by the completed-step
correlation ids recorded in a state: cancelShipment, then refundPayment,
then releaseInventory, each present exactly when its step completed. -/
def compListOf (st : OrderState) : List CompCall :=
  (st.shipmentId.map CompCall.cancelShipment).toList ++
  (st.paymentId.map CompCall.refundPayment).toList ++
  (st.reservationId.map CompCall.releaseInventory).toList

end Order

namespace ML

/-- The SeededRNG constructor (src/workflows/ml-training-workflow.ts):
`state = seed % 2147483647; if (state <= 0) state += 2147483646`.
JavaScript `%` is truncated remainder, hence `Int.tmod`. -/
def rngInit (seed : Int) : Int :=
  let s := Int.tmod seed 2147483647
  if s ≤ 0 then s + 2147483646 else s

/-- SeededRNG.next(): the linear-congruential step
`state = (state * 48271) % 2147483647` followed by
`return (state - 1) / 2147483646`, as exact rational arithmetic
(the claim is stated in exact terms; the sign and boundary behaviour
shown here is identical for IEEE doubles at the inputs considered). -/
def next (state : Int) : Int × ℚ :=
  let s := Int.tmod (state * 48271) 2147483647
  (s, ((s : ℚ) - 1) / 2147483646)

/-- SeededRNG.nextInt(min,max):
`Math.floor(this.next() * (max - min + 1)) + min`. -/
def nextInt (state : Int) (min max : Int) : Int × Int :=
  let p := next state
  (p.1, ⌊p.2 * ((max : ℚ) - (min : ℚ) + 1)⌋ + min)

/-- Payload of the researcherDecision signal; the source's
`'continue' | 'adjust' | 'stop'` union as a closed variant type. -/
inductive RAction
  | cont
  | adjust
  | stop
deriving DecidableEq

/-- ResearcherDecision as read by the workflow (`newHyperparameters`
is never read by the control logic on the demo path, so omitted). -/
structure ResearcherDecision where
  action : RAction
  reason : String := ""
deriving DecidableEq

/-- CheckpointInfo fields the control logic reads (checkpointId,
s3Path, merkleRoot and timestamps are carried opaquely). -/
structure CheckpointInfo where
  epoch : Nat
  loss : ℚ
deriving DecidableEq

/-- TrainingConfig fields the control flow reads. -/
structure TrainingConfig where
  epochs : Nat
  checkpointInterval : Nat
  randomSeed : Option Int := none
deriving DecidableEq

/-- The status values assigned by mlTrainingWorkflow. -/
inductive TrainingStatus
  | initializing
  | training
  | checkpointing
  | evaluating
  | awaitingApproval
  | completed
  | failed
  | cancelled
deriving DecidableEq

/-- Environment of one mlTrainingWorkflow execution.  `trainRes e` is the
visible outcome of trainEpoch for epoch `e` (its loss); `saveRes k` of
saveCheckpoint for checkpoint epoch `k`; `researcherAt r` the decision
observed by the `r`-th researcher-review wait (none: 2h timeout);
`cancelFrom` the first epoch at whose cancellation check the cancel flag
reads true; `workflowIdHash` the value of hashWorkflowId(workflowId). -/
structure MLEnv where
  workflowIdHash : Int
  initRes : Except String Unit
  trainRes : Nat → Except String ℚ
  saveRes : Nat → Except String Unit
  evalRes : Except String Unit
  cleanupRes : Except String Unit
  researcherAt : Nat → Option ResearcherDecision
  cancelFrom : Option Nat

/-- The seed: `config.randomSeed || hashWorkflowId(workflowId)`
(JavaScript ||, so a 0 seed falls back to the hash). -/
def seedOf (cfg : TrainingConfig) (env : MLEnv) : Int :=
  match cfg.randomSeed with
  | some s => if s = 0 then env.workflowIdHash else s
  | none => env.workflowIdHash

/-- JavaScript `x || Infinity` on an optional loss: 0 is falsy.  `none`
stands for Infinity. -/
def jsLossOrInf (v : Option ℚ) : Option ℚ :=
  match v with
  | some x => if x = 0 then none else some x
  | none => none

/-- `loss < bestLoss` where `none` stands for Infinity. -/
def lossLt (loss : ℚ) (best : Option ℚ) : Bool :=
  match best with
  | some b => decide (loss < b)
  | none => true

/-- The mutable training state threaded through the epoch loop. -/
structure MLState where
  currentEpoch : Nat
  currentLoss : Option ℚ
  bestLoss : Option ℚ
  checkpoints : List CheckpointInfo
  status : TrainingStatus
deriving DecidableEq

/-- Outcome of the epoch loop: `norm` covers both normal exhaustion and
the researcher-stop break; `threw` is a raised error (cancellation or a
failed activity).  `calls` lists the trainEpoch invocations made from
this point on as (epoch, shuffleSeed) pairs; `obs` lists the
researcher-review observations as (review index, observed decision). -/
inductive MLLoopOut
  | norm (st : MLState) (rngSt : Int) (calls : List (Nat × Int))
      (obs : List (Nat × Option ResearcherDecision))
  | threw (e : String) (st : MLState) (calls : List (Nat × Int))
      (obs : List (Nat × Option ResearcherDecision))

/-- Prepend earlier trainEpoch calls and review observations to a loop
outcome. -/
def MLLoopOut.pre (calls : List (Nat × Int))
    (obs : List (Nat × Option ResearcherDecision)) : MLLoopOut → MLLoopOut
  | .norm st r cs os => .norm st r (calls ++ cs) (obs ++ os)
  | .threw e st cs os => .threw e st (calls ++ cs) (obs ++ os)

/-- The trainEpoch calls of a loop outcome. -/
def MLLoopOut.calls : MLLoopOut → List (Nat × Int)
  | .norm _ _ cs _ => cs
  | .threw _ _ cs _ => cs

/-- The review observations of a loop outcome. -/
def MLLoopOut.obsOut : MLLoopOut → List (Nat × Option ResearcherDecision)
  | .norm _ _ _ os => os
  | .threw _ _ _ os => os

/-- The state carried by a loop outcome. -/
def MLLoopOut.stOut : MLLoopOut → MLState
  | .norm st _ _ _ => st
  | .threw _ st _ _ => st

/-- The checkpoint step inside the training loop: every
checkpointInterval epochs, saveCheckpoint and append the new checkpoint
(at epoch index `epoch + 1`) to the checkpoints list. -/
def checkpointStep (env : MLEnv) (interval epoch : Nat) (loss : ℚ) (st1 : MLState) :
    Except String MLState :=
  if (epoch + 1) % interval == 0 then
    match env.saveRes (epoch + 1) with
    | .error e => .error e
    | .ok _ =>
      .ok { st1 with
        checkpoints := st1.checkpoints ++ [⟨epoch + 1, loss⟩]
        status := TrainingStatus.training }
  else .ok st1

/-- The body of the training loop `for epoch in [start, total)`, with
`fuel = total - epoch` iterations remaining.  Mirrors the source order:
cancellation check, trainEpoch (consuming one nextInt draw for the
shuffle seed), state update, checkpoint every checkpointInterval epochs,
researcher review every 10 epochs (observing the decision slot, which is
cleared when a continue/adjust decision is consumed; a stop decision
breaks out of the loop). -/
def mlLoop (env : MLEnv) (interval : Nat) :
    Nat → Nat → Int → Option ResearcherDecision → Nat → MLState → MLLoopOut
  | 0, _, rngSt, _, _, st => .norm st rngSt [] []
  | fuel + 1, epoch, rngSt, slot, g, st =>
    if cancelledAt env.cancelFrom epoch then
      .threw "Training cancelled by researcher" st [] []
    else
      let draw := nextInt rngSt 0 1000000
      let call : Nat × Int := (epoch, draw.2)
      match env.trainRes epoch with
      | .error e => .threw e st [call] []
      | .ok loss =>
        let st1 : MLState :=
          { st with
            currentEpoch := epoch
            currentLoss := some loss
            bestLoss := if lossLt loss st.bestLoss then some loss else st.bestLoss }
        match checkpointStep env interval epoch loss st1 with
        | .error e => .threw e { st1 with status := .checkpointing } [call] []
        | .ok st2 =>
          if (epoch + 1) % 10 == 0 then
            let observed :=
              match slot with
              | some d => some d
              | none => env.researcherAt g
            let entry : Nat × Option ResearcherDecision := (g, observed)
            match observed with
            | some d =>
              match d.action with
              | .stop =>
                .norm { st2 with status := .awaitingApproval } draw.1 [call] [entry]
              | .adjust =>
                MLLoopOut.pre [call] [entry]
                  (mlLoop env interval fuel (epoch + 1) draw.1 none (g + 1)
                    { st2 with status := .training })
              | .cont =>
                MLLoopOut.pre [call] [entry]
                  (mlLoop env interval fuel (epoch + 1) draw.1 none (g + 1)
                    { st2 with status := .training })
            | none =>
              MLLoopOut.pre [call] [entry]
                (mlLoop env interval fuel (epoch + 1) draw.1 none (g + 1)
                  { st2 with status := .training })
          else
            MLLoopOut.pre [call] []
              (mlLoop env interval fuel (epoch + 1) draw.1 slot g st2)

/-- The loop start index: `resumeFromCheckpoint?.epoch || 0` (a 0 epoch
is its own fallback, so plain projection with default 0 is exact). -/
def mlStart (resume : Option CheckpointInfo) : Nat :=
  match resume with
  | some c => c.epoch
  | none => 0

/-- The initial TrainingState: resume fields when a checkpoint is
supplied (the checkpoints list starts as [resumeFromCheckpoint]). -/
def mlInitState (resume : Option CheckpointInfo) : MLState :=
  { currentEpoch := mlStart resume
    currentLoss := jsLossOrInf (resume.map fun c => c.loss)
    bestLoss := jsLossOrInf (resume.map fun c => c.loss)
    checkpoints := match resume with | some c => [c] | none => []
    status := .initializing }

/-- Observable result of one mlTrainingWorkflow execution. -/
structure MLResult where
  outcome : Except String Unit
  finalStatus : TrainingStatus
  checkpoints : List CheckpointInfo
  trainCalls : List (Nat × Int)
  reviewObs : List (Nat × Option ResearcherDecision)

/-- Shallow embedding of mlTrainingWorkflow: initialize, run the epoch
loop from `resumeFromCheckpoint?.epoch || 0`, evaluate, complete; on a
raised error run the (best-effort, swallowed) cleanup and re-throw. -/
def mlTrainingWorkflow (cfg : TrainingConfig) (resume : Option CheckpointInfo)
    (env : MLEnv) : MLResult :=
  let seed := seedOf cfg env
  let rng0 := rngInit seed
  let start := mlStart resume
  let st0 : MLState := mlInitState resume
  match env.initRes with
  | .error e =>
    { outcome := .error e, finalStatus := .failed, checkpoints := st0.checkpoints
      trainCalls := [], reviewObs := [] }
  | .ok _ =>
    let st1 := { st0 with status := TrainingStatus.training }
    match mlLoop env cfg.checkpointInterval (cfg.epochs - start) start rng0 none 0 st1 with
    | .threw e st calls obs =>
      { outcome := .error e, finalStatus := .failed, checkpoints := st.checkpoints
        trainCalls := calls, reviewObs := obs }
    | .norm st _ calls obs =>
      match env.evalRes with
      | .error e =>
        { outcome := .error e, finalStatus := .failed, checkpoints := st.checkpoints
          trainCalls := calls, reviewObs := obs }
      | .ok _ =>
        { outcome := .ok (), finalStatus := .completed, checkpoints := st.checkpoints
          trainCalls := calls, reviewObs := obs }

end ML

namespace CA

/-- The analysisType union of CodebaseAnalysisTask. -/
inductive ATy
  | architectural
  | security
  | performance
  | quality
deriving DecidableEq

/-- The targetImprovement union. -/
inductive TImp
  | performance
  | maintainability
  | security
deriving DecidableEq

/-- CodebaseAnalysisTask (src/unnamed/part_001): the fields the control
logic reads.  `requiresApproval?: boolean` is truthy-tested, which for a
boolean-typed optional field coincides with `false` as the default. -/
structure CATask where
  taskId : String
  files : List String
  analysisType : ATy
  targetImprovement : Option TImp := none
  budget : Option ℚ := none
  requiresApproval : Bool := false
deriving DecidableEq

/-- The status values of AnalysisState. -/
inductive AnalysisStatus
  | initializing
  | analyzing
  | planning
  | awaitingApproval
  | refactoring
  | testing
  | budgetExceeded
  | completed
  | failed
  | cancelled
deriving DecidableEq

/-- Payload of the approveBudget signal. -/
structure BudgetApproval where
  approved : Bool
  newBudget : Option ℚ := none
deriving DecidableEq

/-- Payload of the approveRefactorPlan signal. -/
structure PlanApproval where
  approved : Bool
deriving DecidableEq

/-- A refactor plan: the fields the control logic reads (batches are
carried by their batchIds). -/
structure RefactorPlan where
  planId : String
  estimatedCost : ℚ
  batches : List String
deriving DecidableEq

/-- Result of one analyzeFile call: issues are represented by their
`type` tags, which is all the coordinator logic inspects. -/
structure FileAnalysis where
  cost : ℚ
  issues : List String
deriving DecidableEq

/-- AnalysisState: the in-memory record (wall-clock fields omitted). -/
structure AnalysisState where
  taskId : String
  status : AnalysisStatus
  currentStage : String
  filesAnalyzed : Nat
  totalFiles : Nat
  costSoFar : ℚ
  budgetRemaining : ℚ
  issues : List String
  refactorPlan : Option RefactorPlan
  results : List FileAnalysis
deriving DecidableEq

/-- Environment of one codebaseAnalysisWorkflow execution.
`analyzeRes i` is the outcome of analyzeFile for file index `i`;
`budgetSignalAt g` the budget approval observed by the `g`-th budget
gate wait (none: 1h timeout); `planSignal` the decision observed by the
plan-approval wait; `batchRes j` / `testRes j` / `rollbackRes j` the
outcomes of refactorBatch / runTests / rollbackBatch for batch index
`j`; `cancelAt` the first loop index at whose cancellation check the
cancel flag reads true. -/
structure CAEnv where
  analyzeRes : Nat → Except String FileAnalysis
  budgetSignalAt : Nat → Option BudgetApproval
  planRes : Except String RefactorPlan
  planSignal : Option PlanApproval
  batchRes : Nat → Except String ℚ
  testRes : Nat → Except String Bool
  rollbackRes : Nat → Except String Unit
  cancelAt : Option Nat

/-- One observable event of a codebaseAnalysisWorkflow run, in program
order.  Cost-accruing events carry the value of `state.costSoFar`
immediately after the accrual. -/
inductive AEvent
  | analyze (i : Nat) (newTotal : ℚ)
  | check (exceeded : Bool)
  | gate (g : Nat) (observed : Option BudgetApproval)
  | progress (i : Nat)
  | planGen (newTotal : ℚ)
  | planGate (observed : Option PlanApproval)
  | batch (j : Nat) (newTotal : ℚ)
  | test (j : Nat) (passed : Bool)
  | rollback (j : Nat)
  | notifyEvt
deriving DecidableEq

/-- The `emitProgress` condition: every 10 files and on the last file. -/
def progressEvents (i total : Nat) : List AEvent :=
  if i % 10 == 0 || i == total - 1 then [AEvent.progress i] else []

/-- Outcome of the stage-1 file loop: an early `return state`
(cancellation or budget rejection), a thrown error, or normal
completion carrying the accumulated analyses, the next budget-gate
index and the budget slot. -/
inductive StageOneOut
  | ret (st : AnalysisState) (tr : List AEvent)
  | err (e : String) (st : AnalysisState) (tr : List AEvent)
  | next (analyses : List FileAnalysis) (g : Nat) (slot : Option BudgetApproval)
      (st : AnalysisState) (tr : List AEvent)

/-- Prepend earlier events to a stage-1 outcome. -/
def StageOneOut.pre (ev : List AEvent) : StageOneOut → StageOneOut
  | .ret st tr => .ret st (ev ++ tr)
  | .err e st tr => .err e st (ev ++ tr)
  | .next analyses g slot st tr => .next analyses g slot st (ev ++ tr)

/-- The events produced by a stage-1 outcome. -/
def StageOneOut.events : StageOneOut → List AEvent
  | .ret _ tr => tr
  | .err _ _ tr => tr
  | .next _ _ _ _ tr => tr

/-- The state carried by a stage-1 outcome. -/
def StageOneOut.stOut : StageOneOut → AnalysisState
  | .ret st _ => st
  | .err _ st _ => st
  | .next _ _ _ st _ => st

/-- The budget-gate application of an approved decision:
`if (budgetApproval.newBudget) state.budgetRemaining = newBudget - costSoFar`
(JavaScript truthiness: a 0 newBudget is falsy). -/
def applyNewBudget (ap : BudgetApproval) (st : AnalysisState) : AnalysisState :=
  match ap.newBudget with
  | some nb => if nb = 0 then st else { st with budgetRemaining := nb - st.costSoFar }
  | none => st

/-- Stage 1 of codebaseAnalysisWorkflow: the file-by-file analysis loop
with the cancellation check, the cost accrual, the ceiling check
`costSoFar > (task.budget || 100)` after every analyzeFile, the budget
gate (whose slot is reset after an approved decision is consumed), and
the periodic progress emission.  Structural recursion over the
remaining file list; `i` is the current index. -/
def caLoop (env : CAEnv) (budget : Option ℚ) (total : Nat) :
    List String → Nat → Nat → Option BudgetApproval → List FileAnalysis →
    AnalysisState → StageOneOut
  | [], _, g, slot, analyses, st => .next analyses g slot st []
  | _f :: rest, i, g, slot, analyses, st =>
    if cancelledAt env.cancelAt i then
      .ret { st with status := .cancelled } []
    else
      match env.analyzeRes i with
      | .error e => .err e st []
      | .ok a =>
        let total' := st.costSoFar + a.cost
        let st1 :=
          { st with
            filesAnalyzed := i + 1
            costSoFar := total'
            budgetRemaining := jsOrQ budget 100 - total'
            issues := st.issues ++ a.issues }
        let exceeded := decide (jsOrQ budget 100 < total')
        let ev0 := [AEvent.analyze i total', AEvent.check exceeded]
        if exceeded then
          let st2 := { st1 with
            status := AnalysisStatus.budgetExceeded
            currentStage := "awaiting-budget-approval" }
          let observed :=
            match slot with
            | some d => some d
            | none => env.budgetSignalAt g
          let ev1 := ev0 ++ [AEvent.notifyEvt, AEvent.gate g observed]
          match observed with
          | none =>
            .ret { st2 with status := .cancelled, currentStage := "budget-exceeded" } ev1
          | some ap =>
            if ap.approved then
              let st3 := applyNewBudget ap st2
              let st4 := { st3 with status := AnalysisStatus.analyzing }
              StageOneOut.pre (ev1 ++ progressEvents i total)
                (caLoop env budget total rest (i + 1) (g + 1) none
                  (analyses ++ [a]) st4)
            else
              .ret { st2 with status := .cancelled, currentStage := "budget-exceeded" } ev1
        else
          StageOneOut.pre (ev0 ++ progressEvents i total)
            (caLoop env budget total rest (i + 1) g slot (analyses ++ [a]) st1)

/-- Outcome of the stage-4 batch loop. -/
inductive BatchOut
  | done (st : AnalysisState) (tr : List AEvent)
  | errB (e : String) (st : AnalysisState) (tr : List AEvent)

/-- Prepend earlier events to a batch-loop outcome. -/
def BatchOut.pre (ev : List AEvent) : BatchOut → BatchOut
  | .done st tr => .done st (ev ++ tr)
  | .errB e st tr => .errB e st (ev ++ tr)

/-- The events produced by a batch-loop outcome. -/
def BatchOut.events : BatchOut → List AEvent
  | .done _ tr => tr
  | .errB _ _ tr => tr

/-- The state carried by a batch-loop outcome. -/
def BatchOut.stOut : BatchOut → AnalysisState
  | .done st _ => st
  | .errB _ st _ => st

/-- Stage 4 of codebaseAnalysisWorkflow: execute refactor batches.  Each
batch: refactorBatch (cost accrual), runTests; a failed test triggers a
rollback (best-effort continuation); a thrown refactorBatch or runTests
triggers the catch-block rollback and re-throws (a rollback that itself
throws replaces the propagated error, as in the source). -/
def caBatches (env : CAEnv) : List String → Nat → AnalysisState → BatchOut
  | [], _, st => .done st []
  | _b :: rest, j, st =>
    match env.batchRes j with
    | .error e =>
      (match env.rollbackRes j with
       | .error re => .errB re st [AEvent.rollback j]
       | .ok _ => .errB e st [AEvent.rollback j])
    | .ok c =>
      let st1 := { st with costSoFar := st.costSoFar + c }
      let st2 := { st1 with status := AnalysisStatus.testing }
      let evB := [AEvent.batch j st1.costSoFar]
      match env.testRes j with
      | .error e =>
        (match env.rollbackRes j with
         | .error re => .errB re st2 (evB ++ [AEvent.rollback j])
         | .ok _ => .errB e st2 (evB ++ [AEvent.rollback j]))
      | .ok passed =>
        let evT := evB ++ [AEvent.test j passed]
        if passed then
          BatchOut.pre evT
            (caBatches env rest (j + 1) { st2 with status := AnalysisStatus.refactoring })
        else
          match env.rollbackRes j with
          | .error re =>
            .errB re st2 (evT ++ [AEvent.rollback j, AEvent.rollback j])
          | .ok _ =>
            BatchOut.pre (evT ++ [AEvent.rollback j, AEvent.notifyEvt])
              (caBatches env rest (j + 1) { st2 with status := AnalysisStatus.refactoring })

/-- Observable result of one codebaseAnalysisWorkflow execution. -/
structure CAResult where
  outcome : Except String AnalysisState
  finalState : AnalysisState
  trace : List AEvent

/-- Prepend earlier events to a result's trace. -/
def CAResult.pre (ev : List AEvent) (r : CAResult) : CAResult :=
  { r with trace := ev ++ r.trace }

/-- The completion epilogue: status completed, completion notification. -/
def caComplete (st : AnalysisState) : CAResult :=
  let stF := { st with status := AnalysisStatus.completed, currentStage := "completed" }
  { outcome := .ok stF, finalState := stF, trace := [AEvent.notifyEvt] }

/-- The catch block: status failed, stage error, re-throw. -/
def caFail (e : String) (st : AnalysisState) : CAResult :=
  let stF := { st with status := AnalysisStatus.failed, currentStage := "error" }
  { outcome := .error e, finalState := stF, trace := [] }

/-- An early `return state` with status cancelled (plan rejection). -/
def caCancelled (st : AnalysisState) (stage : String) : CAResult :=
  let stC := { st with status := AnalysisStatus.cancelled, currentStage := stage }
  { outcome := .ok stC, finalState := stC, trace := [] }

/-- Stages 2-4 of codebaseAnalysisWorkflow: refactor-plan generation
(adding its 0.1 cost with no ceiling check, as in the source), the
plan-approval gate, and batch execution, all under
`task.targetImprovement && analyses.length > 0`, with stages 3-4 under
`task.requiresApproval`. -/
def caPlanStages (task : CATask) (env : CAEnv) (analyses : List FileAnalysis)
    (st : AnalysisState) : CAResult :=
  match task.targetImprovement with
  | none => caComplete st
  | some _ =>
    if analyses.length > 0 then
      let st2 := { st with
        status := AnalysisStatus.planning
        currentStage := "generating-refactor-plan" }
      match env.planRes with
      | .error e => caFail e st2
      | .ok plan =>
        let st3 := { st2 with
          refactorPlan := some plan
          costSoFar := st2.costSoFar + 1/10 }
        let evP := [AEvent.planGen st3.costSoFar]
        if task.requiresApproval then
          let st4 := { st3 with
            status := AnalysisStatus.awaitingApproval
            currentStage := "awaiting-plan-approval" }
          let observed := env.planSignal
          let evG := evP ++ [AEvent.notifyEvt, AEvent.planGate observed]
          match observed with
          | none => CAResult.pre evG (caCancelled st4 "plan-rejected")
          | some d =>
            if d.approved then
              let st5 := { st4 with
                status := AnalysisStatus.refactoring
                currentStage := "executing-refactor" }
              match caBatches env plan.batches 0 st5 with
              | .errB e stE trB => CAResult.pre (evG ++ trB) (caFail e stE)
              | .done stD trB => CAResult.pre (evG ++ trB) (caComplete stD)
            else CAResult.pre evG (caCancelled st4 "plan-rejected")
        else
          CAResult.pre evP (caComplete st3)
    else
      caComplete st

/-- The state at entry of the stage-1 loop: the freshly initialized
AnalysisState (status initializing, stage initialization) immediately
updated to analyzing / file-analysis, as the first two assignments of
the workflow do. -/
def caStart (task : CATask) : AnalysisState :=
  { taskId := task.taskId
    status := .analyzing
    currentStage := "file-analysis"
    filesAnalyzed := 0
    totalFiles := task.files.length
    costSoFar := 0
    budgetRemaining := jsOrQ task.budget 100
    issues := []
    refactorPlan := none
    results := [] }

/-- Shallow embedding of codebaseAnalysisWorkflow. -/
def codebaseAnalysisWorkflow (task : CATask) (env : CAEnv) : CAResult :=
  match caLoop env task.budget task.files.length task.files 0 0 none [] (caStart task) with
  | .ret st tr => { outcome := .ok st, finalState := st, trace := tr }
  | .err e st tr => CAResult.pre tr (caFail e st)
  | .next analyses _g _slot st tr =>
    CAResult.pre tr (caPlanStages task env analyses { st with results := analyses })

/-- The budget-gate observations of a trace, as (gate index, observed
decision) pairs. -/
def gateObs (tr : List AEvent) : List (Nat × Option BudgetApproval) :=
  tr.filterMap fun e =>
    match e with
    | .gate g o => some (g, o)
    | _ => none

/-- Whether an event accrues cost to the ledger. -/
def isCostStep : AEvent → Bool
  | .analyze _ _ => true
  | .planGen _ => true
  | .batch _ _ => true
  | _ => false

/-- Whether an event is an evaluation of the ceiling check. -/
def isCheck : AEvent → Bool
  | .check _ => true
  | _ => false

/-- Whether an event is a refactor-execution activity call
(refactorBatch, runTests or rollbackBatch). -/
def isRefactorCall : AEvent → Bool
  | .batch _ _ => true
  | .test _ _ => true
  | .rollback _ => true
  | _ => false

/-- The claim's ledger discipline, read off a trace: after every
cost-accruing step the ceiling check is evaluated before the next
cost-accruing step proceeds (never batched or skipped).  `pending`
records whether a cost accrual is still awaiting its check. -/
def checksNotSkipped : List AEvent → Bool → Bool
  | [], _ => true
  | e :: rest, pending =>
    if isCostStep e then !pending && checksNotSkipped rest true
    else if isCheck e then checksNotSkipped rest false
    else checksNotSkipped rest pending

/-- The discipline the source actually follows: every analyzeFile cost
accrual is immediately followed by a ceiling check. -/
def checkFollowsAnalyze : List AEvent → Bool
  | [] => true
  | AEvent.analyze _ _ :: rest =>
    (match rest with
     | AEvent.check _ :: _ => true
     | _ => false) && checkFollowsAnalyze rest
  | _ :: rest => checkFollowsAnalyze rest

/-- The successive ledger values: `costSoFar` after each accrual. -/
def costValues (tr : List AEvent) : List ℚ :=
  tr.filterMap fun e =>
    match e with
    | .analyze _ c => some c
    | .planGen c => some c
    | .batch _ c => some c
    | _ => none

end CA

namespace MA

/-- Environment of one multiAgentCodebaseWorkflow execution: one child
environment per child workflow.  `archSettlesFirst` records which of the
two parallel children's failure event the substrate delivers first,
which is what `Promise.all` rejects with when both fail. -/
structure MAEnv where
  archEnv : CA.CAEnv
  secEnv : CA.CAEnv
  perfEnv : CA.CAEnv
  archSettlesFirst : Bool

/-- The architecture-analysis child task launched by the parent (literal
payload from the source; the Date.now() suffixes of the ids are inert). -/
def archTask : CA.CATask :=
  { taskId := "arch", files := ["file1.ts", "file2.ts"], analysisType := .architectural }

/-- The security-analysis child task. -/
def secTask : CA.CATask :=
  { taskId := "sec", files := ["file1.ts", "file2.ts"], analysisType := .security }

/-- The performance-analysis child task (phase 2). -/
def perfTask : CA.CATask :=
  { taskId := "perf", files := ["file1.ts", "file2.ts"], analysisType := .performance }

/-- Observable result of one multiAgentCodebaseWorkflow execution: each
child's own outcome, and the parent's outcome (the results record, or
the propagated failure). -/
structure MAResult where
  archOutcome : Except String CA.AnalysisState
  secOutcome : Except String CA.AnalysisState
  perfOutcome : Option (Except String CA.AnalysisState)
  outcome : Except String (CA.AnalysisState × CA.AnalysisState × Option CA.AnalysisState)

/-- Shallow embedding of multiAgentCodebaseWorkflow: phase 1 runs the
architecture and security children in parallel (`Promise.all`: both are
started; if any fails the parent awaits the first failure and re-throws
it); phase 2 runs the performance child only when the architecture
result reported a performance-issue. -/
def multiAgentCodebaseWorkflow (env : MAEnv) : MAResult :=
  let a := (CA.codebaseAnalysisWorkflow archTask env.archEnv).outcome
  let s := (CA.codebaseAnalysisWorkflow secTask env.secEnv).outcome
  match a, s with
  | .error ea, .error es =>
    { archOutcome := .error ea, secOutcome := .error es, perfOutcome := none
      outcome := .error (if env.archSettlesFirst then ea else es) }
  | .error ea, .ok sv =>
    { archOutcome := .error ea, secOutcome := .ok sv, perfOutcome := none
      outcome := .error ea }
  | .ok av, .error es =>
    { archOutcome := .ok av, secOutcome := .error es, perfOutcome := none
      outcome := .error es }
  | .ok av, .ok sv =>
    if av.issues.contains "performance-issue" then
      match (CA.codebaseAnalysisWorkflow perfTask env.perfEnv).outcome with
      | .error ep =>
        { archOutcome := .ok av, secOutcome := .ok sv
          perfOutcome := some (.error ep), outcome := .error ep }
      | .ok pv =>
        { archOutcome := .ok av, secOutcome := .ok sv
          perfOutcome := some (.ok pv), outcome := .ok (av, sv, some pv) }
    else
      { archOutcome := .ok av, secOutcome := .ok sv, perfOutcome := none
        outcome := .ok (av, sv, none) }

end MA

namespace Order

/-- The compensation call list determined by three optional correlation
ids, in reverse step order. -/
def compsOf (sid pid rid : Option String) : List CompCall :=
  (sid.map CompCall.cancelShipment).toList ++
  (pid.map CompCall.refundPayment).toList ++
  (rid.map CompCall.releaseInventory).toList

/-- An order environment with the three compensation-activity outcomes
replaced: used to state that a compensating call's own failure has no
effect on anything except the logged error list. -/
def envC (env : OrderEnv) (c1 c2 c3 : Except String Unit) : OrderEnv :=
  { env with cancelShipmentRes := c1, refundPaymentRes := c2, releaseInventoryRes := c3 }

end Order

/-- Concrete order input for the C1 witness: a 100-dollar order. -/
def c1Input : Order.OrderInput := ⟨"o-1", "c-1", 100⟩

/-- Concrete environment for the C1 witness: reserve and payment
succeed, shipment creation fails, and the refund compensation itself
fails (to exercise best-effort compensation). -/
def c1Env : Order.OrderEnv :=
  { reserveRes := .ok ⟨"r-1"⟩
    payRes := .ok ⟨"p-1"⟩
    shipRes := .error "shipment service down"
    approvalObserved := none
    cancelAt := none
    cancelShipmentRes := .ok ()
    refundPaymentRes := .error "refund failed"
    releaseInventoryRes := .ok () }

/-- Concrete order input for the C5 counterexample: a 100-dollar order
(no approval step). -/
def c5Input : Order.OrderInput := ⟨"o-5", "c-5", 100⟩

/-- Concrete environment for the C5 counterexample: every forward step
succeeds and the cancel signal is received during the 7-day tail wait
(observation point 3, i.e. after the last cancellation check). -/
def c5Env : Order.OrderEnv :=
  { reserveRes := .ok ⟨"r-5"⟩
    payRes := .ok ⟨"p-5"⟩
    shipRes := .ok ⟨"s-5", "t-5"⟩
    approvalObserved := none
    cancelAt := some 3
    cancelShipmentRes := .ok ()
    refundPaymentRes := .ok ()
    releaseInventoryRes := .ok () }

/-- Concrete order input for the C7 witness: a 10000-dollar order. -/
def c7Input : Order.OrderInput := ⟨"o-7", "c-7", 10000⟩

/-- Concrete environment for the C7 witness: reserve and payment
succeed, and the 24h approval wait times out with no decision. -/
def c7Env : Order.OrderEnv :=
  { reserveRes := .ok ⟨"r-7"⟩
    payRes := .ok ⟨"p-7"⟩
    shipRes := .ok ⟨"s-7", "t-7"⟩
    approvalObserved := none
    cancelAt := none
    cancelShipmentRes := .ok ()
    refundPaymentRes := .ok ()
    releaseInventoryRes := .ok () }

/-- Scenario D task for C2: 20 files, budget 5. -/
def c2Task : CA.CATask :=
  { taskId := "t-2", files := List.replicate 20 "f.ts", analysisType := .quality
    budget := some 5 }

/-- Scenario D environment for C2: every file analysis costs 0.5; the
first budget-gate wait observes an approval carrying newBudget 10; any
later budget-gate wait observes nothing (times out). -/
def c2Env : CA.CAEnv :=
  { analyzeRes := fun _ => .ok ⟨1/2, []⟩
    budgetSignalAt := fun g => if g == 0 then some ⟨true, some 10⟩ else none
    planRes := .ok ⟨"plan-2", 0, []⟩
    planSignal := none
    batchRes := fun _ => .ok 0
    testRes := fun _ => .ok true
    rollbackRes := fun _ => .ok ()
    cancelAt := none }

/-- Training config for the C3 witness: 5 epochs, checkpoint every 2. -/
def c3Cfg : ML.TrainingConfig :=
  { epochs := 5, checkpointInterval := 2, randomSeed := some 1 }

/-- Resume checkpoint for the C3 witness: epoch 2. -/
def c3Resume : ML.CheckpointInfo := ⟨2, 1/2⟩

/-- Environment for the C3 witness: every activity succeeds. -/
def c3Env : ML.MLEnv :=
  { workflowIdHash := 7
    initRes := .ok ()
    trainRes := fun _ => .ok (1/4)
    saveRes := fun _ => .ok ()
    evalRes := .ok ()
    cleanupRes := .ok ()
    researcherAt := fun _ => none
    cancelFrom := none }

/-- A child environment in which the first file analysis fails. -/
def c4FailEnv : CA.CAEnv :=
  { analyzeRes := fun _ => .error "analyzer crashed"
    budgetSignalAt := fun _ => none
    planRes := .ok ⟨"plan-4", 0, []⟩
    planSignal := none
    batchRes := fun _ => .ok 0
    testRes := fun _ => .ok true
    rollbackRes := fun _ => .ok ()
    cancelAt := none }

/-- A child environment in which every activity succeeds cheaply. -/
def c4OkEnv : CA.CAEnv :=
  { analyzeRes := fun _ => .ok ⟨1/10, []⟩
    budgetSignalAt := fun _ => none
    planRes := .ok ⟨"plan-4b", 0, []⟩
    planSignal := none
    batchRes := fun _ => .ok 0
    testRes := fun _ => .ok true
    rollbackRes := fun _ => .ok ()
    cancelAt := none }

/-- Multi-agent environment for the C4 witness: the architecture child
fails, the security child succeeds. -/
def c4Env : MA.MAEnv :=
  { archEnv := c4FailEnv, secEnv := c4OkEnv, perfEnv := c4OkEnv
    archSettlesFirst := true }

/-- Task for the C6 counterexample: one file, budget 1, a refactor
target and required approval, so the plan and batch stages run. -/
def c6Task : CA.CATask :=
  { taskId := "t-6", files := ["a.ts"], analysisType := .performance
    targetImprovement := some .performance, budget := some 1
    requiresApproval := true }

/-- Environment for the C6 counterexample: the single file analysis
costs 0.95 (inside budget), so the 0.1 plan-generation accrual pushes
the ledger over the ceiling of 1 with no gate in the code path; the
plan is approved and its one batch succeeds. -/
def c6Env : CA.CAEnv :=
  { analyzeRes := fun _ => .ok ⟨19/20, []⟩
    budgetSignalAt := fun _ => none
    planRes := .ok ⟨"plan-6", 2, ["b0"]⟩
    planSignal := some ⟨true⟩
    batchRes := fun _ => .ok (1/10)
    testRes := fun _ => .ok true
    rollbackRes := fun _ => .ok ()
    cancelAt := none }

/-- Training config for the C9 witness run: 10 epochs, checkpoint every
3, so one researcher review occurs at epoch 9. -/
def c9Cfg : ML.TrainingConfig :=
  { epochs := 10, checkpointInterval := 3, randomSeed := some 5 }

/-- ML environment for the C9 witness: the single review observes a
continue decision. -/
def c9MLEnv : ML.MLEnv :=
  { workflowIdHash := 3
    initRes := .ok ()
    trainRes := fun _ => .ok (1/2)
    saveRes := fun _ => .ok ()
    evalRes := .ok ()
    cleanupRes := .ok ()
    researcherAt := fun r => if r == 0 then some ⟨ML.RAction.cont, "keep going"⟩ else none
    cancelFrom := none }

/-- Task for the C9 witness run of the analysis workflow: 3 files,
budget 1. -/
def c9Task : CA.CATask :=
  { taskId := "t-9", files := ["x.ts", "y.ts", "z.ts"], analysisType := .security
    budget := some 1 }

/-- CA environment for the C9 witness: the third file pushes the cost
over the ceiling and the single budget-gate wait observes an approval
with newBudget 100. -/
def c9CAEnv : CA.CAEnv :=
  { analyzeRes := fun _ => .ok ⟨1/2, []⟩
    budgetSignalAt := fun g => if g == 0 then some ⟨true, some 100⟩ else none
    planRes := .ok ⟨"plan-9", 0, []⟩
    planSignal := none
    batchRes := fun _ => .ok 0
    testRes := fun _ => .ok true
    rollbackRes := fun _ => .ok ()
    cancelAt := none }

/-- Task for the C10 counterexample: targetImprovement set,
requiresApproval absent, but an empty file list. -/
def c10Task : CA.CATask :=
  { taskId := "t-10", files := [], analysisType := .quality
    targetImprovement := some .performance }

/-- All-success environment for the C10 counterexample. -/
def c10Env : CA.CAEnv :=
  { analyzeRes := fun _ => .ok ⟨1/10, []⟩
    budgetSignalAt := fun _ => none
    planRes := .ok ⟨"plan-10", 1, ["b0"]⟩
    planSignal := some ⟨true⟩
    batchRes := fun _ => .ok 0
    testRes := fun _ => .ok true
    rollbackRes := fun _ => .ok ()
    cancelAt := none }

/-- Task for the amended-C10 witness: one file, targetImprovement set,
requiresApproval absent. -/
def c10bTask : CA.CATask :=
  { taskId := "t-10b", files := ["a.ts"], analysisType := .quality
    targetImprovement := some .maintainability }

/-- All-success environment for the amended-C10 witness. -/
def c10bEnv : CA.CAEnv :=
  { analyzeRes := fun _ => .ok ⟨1/10, []⟩
    budgetSignalAt := fun _ => none
    planRes := .ok ⟨"plan-10b", 1, ["b0"]⟩
    planSignal := none
    batchRes := fun _ => .ok 0
    testRes := fun _ => .ok true
    rollbackRes := fun _ => .ok ()
    cancelAt := none }

set_option maxHeartbeats 2000000

/-- C1: for every orderWorkflow execution that fails, the compensations
for exactly the completed steps run, in strict reverse order
(cancelShipment, then refundPayment, then releaseInventory, each only if
its step recorded a correlation id, hence each at most once and with the
completed steps forming a prefix of the forward order), the final status
is failed, and the original triggering error propagates; replacing the
compensation activities' outcomes arbitrarily (in particular by errors)
changes neither the outcome, nor the compensation call list, nor the
final state, so a throwing compensating call never prevents the
remaining compensations and is never re-thrown. -/
theorem claim_C1 (input : Order.OrderInput) (env : Order.OrderEnv) (e : String)
    (hfail : (Order.orderWorkflow input env).outcome = Except.error e) :
    (Order.orderWorkflow input env).finalState.status = Order.OrderStatus.failed ∧
    (Order.orderWorkflow input env).comps
        = Order.compListOf (Order.orderWorkflow input env).finalState ∧
    ((Order.orderWorkflow input env).finalState.shipmentId.isSome = true →
        (Order.orderWorkflow input env).finalState.paymentId.isSome = true) ∧
    ((Order.orderWorkflow input env).finalState.paymentId.isSome = true →
        (Order.orderWorkflow input env).finalState.reservationId.isSome = true) ∧
    (Order.orderWorkflow input env).comps.Nodup ∧
    ∀ c1 c2 c3 : Except String Unit,
      (Order.orderWorkflow input (Order.envC env c1 c2 c3)).outcome = Except.error e ∧
      (Order.orderWorkflow input (Order.envC env c1 c2 c3)).comps
          = (Order.orderWorkflow input env).comps ∧
      (Order.orderWorkflow input (Order.envC env c1 c2 c3)).finalState
          = (Order.orderWorkflow input env).finalState := by
  obtain ⟨rr, pr, sr, ao, ca, csr, rfr, rir⟩ := env
  cases hA : decide (input.totalAmount > 5000) <;>
    cases hc0 : cancelledAt ca 0 <;>
    cases hc1 : cancelledAt ca 1 <;>
    cases hc2 : cancelledAt ca 2 <;>
    cases rr <;> cases pr <;> cases sr <;>
    rcases ao with _ | ⟨_ | _, aby, rsn⟩ <;>
    simp only [Order.orderWorkflow, Order.orderShip, Order.orderFail, Order.compensate,
      Order.compErrsOf, Order.envC, hA, hc0, hc1, hc2] at hfail ⊢ <;>
    simp_all [Order.compListOf]

/-- Witness for C1 at a concrete failing execution: shipment creation
fails after reserve and payment completed, the refund compensation
itself fails, and still the compensations for exactly the completed
steps run in reverse order and the status is failed. -/
theorem claim_C1_witness :
    (Order.orderWorkflow c1Input c1Env).finalState.status = Order.OrderStatus.failed ∧
    (Order.orderWorkflow c1Input c1Env).comps
        = Order.compListOf (Order.orderWorkflow c1Input c1Env).finalState :=
  ⟨(claim_C1 c1Input c1Env "shipment service down" (by decide)).1,
   (claim_C1 c1Input c1Env "shipment service down" (by decide)).2.1⟩

/-- Counterexample for C5 as stated: with every forward step succeeding
and the cancel signal received during the 7-day tail wait (observation
point 3), the cancellation is NOT observed: the execution still reaches
the completed terminal state and returns normally, so the tail wait is
not interruptible by the cancellation signal. -/
theorem claim_C5_cx :
    c5Env.cancelAt = some 3 ∧
    (Order.orderWorkflow c5Input c5Env).finalState.status = Order.OrderStatus.completed ∧
    (Order.orderWorkflow c5Input c5Env).outcome
      = Except.ok (Order.orderWorkflow c5Input c5Env).finalState := by
  refine ⟨rfl, ?_, ?_⟩ <;> decide

/-- C5 (amended): a cancellation signal received only after the last
cancellation check (in particular during the 7-day tail wait) is a
no-op not because the tail wait is interruptible, but because the
cancel flag is never consulted after the pre-shipment check: every run
whose forward steps all succeed (and whose approval, when required, is
granted) ends completed regardless of such a late cancel signal, and
once the terminal state is reached cancellation has no effect. -/
theorem claim_C5_amended (input : Order.OrderInput) (env : Order.OrderEnv)
    (t : Nat) (rv : Order.Reservation) (pv : Order.Payment) (sv : Order.Shipment)
    (hc : env.cancelAt = some t) (ht : 3 ≤ t)
    (hres : env.reserveRes = .ok rv) (hpay : env.payRes = .ok pv)
    (hship : env.shipRes = .ok sv)
    (happr : input.totalAmount ≤ 5000 ∨
      ∃ d, env.approvalObserved = some d ∧ d.approved = true) :
    (Order.orderWorkflow input env).finalState.status = Order.OrderStatus.completed ∧
    (Order.orderWorkflow input env).outcome
      = Except.ok (Order.orderWorkflow input env).finalState := by
  have hc0 : cancelledAt env.cancelAt 0 = false := by
    rw [hc]; simp only [cancelledAt, decide_eq_false_iff_not]; omega
  have hc1 : cancelledAt env.cancelAt 1 = false := by
    rw [hc]; simp only [cancelledAt, decide_eq_false_iff_not]; omega
  have hc2 : cancelledAt env.cancelAt 2 = false := by
    rw [hc]; simp only [cancelledAt, decide_eq_false_iff_not]; omega
  cases hA : decide (input.totalAmount > 5000) with
  | false =>
    simp only [Order.orderWorkflow, Order.orderShip, hres, hpay, hship,
      hc0, hc1, hc2, hA]
    simp
  | true =>
    rcases happr with hle | ⟨d, hd, hda⟩
    · exact absurd (of_decide_eq_true hA) (not_lt.2 hle)
    · simp only [Order.orderWorkflow, Order.orderShip, hres, hpay, hship,
        hc0, hc1, hc2, hA, hd, hda]
      simp

/-- Witness for the amended C5 at a concrete run: all steps succeed, the
cancel signal arrives during the tail wait, and the run completes. -/
theorem claim_C5_witness :
    (Order.orderWorkflow c5Input c5Env).finalState.status = Order.OrderStatus.completed ∧
    (Order.orderWorkflow c5Input c5Env).outcome
      = Except.ok (Order.orderWorkflow c5Input c5Env).finalState :=
  claim_C5_amended c5Input c5Env 3 ⟨"r-5"⟩ ⟨"p-5"⟩ ⟨"s-5", "t-5"⟩ rfl (by decide)
    rfl rfl rfl (Or.inl (by decide))

/-- C7: for every 10000-dollar order whose reserve and payment steps
succeed (and no cancellation up to those points), the status history
reaches awaiting_approval; an approved decision leads (with a successful
shipment and no cancellation at the post-approval check) to status
completed; an explicit rejection and the 24h timeout behave identically:
in both cases the compensations run for payment then reservation (the
shipment was never created), in that order, and the execution ends with
status failed and a propagated error. -/
theorem claim_C7 (input : Order.OrderInput) (env : Order.OrderEnv)
    (rv : Order.Reservation) (pv : Order.Payment)
    (hamt : input.totalAmount = 10000)
    (hres : env.reserveRes = .ok rv) (hpay : env.payRes = .ok pv)
    (hc0 : cancelledAt env.cancelAt 0 = false)
    (hc1 : cancelledAt env.cancelAt 1 = false) :
    Order.OrderStatus.awaitingApproval ∈ (Order.orderWorkflow input env).statusHistory ∧
    (∀ d sv, env.approvalObserved = some d → d.approved = true →
      cancelledAt env.cancelAt 2 = false → env.shipRes = .ok sv →
      (Order.orderWorkflow input env).finalState.status = Order.OrderStatus.completed ∧
      (Order.orderWorkflow input env).outcome
        = Except.ok (Order.orderWorkflow input env).finalState) ∧
    (∀ d, env.approvalObserved = some d → d.approved = false →
      (Order.orderWorkflow input env).comps
          = [Order.CompCall.refundPayment pv.paymentId,
             Order.CompCall.releaseInventory rv.reservationId] ∧
      (Order.orderWorkflow input env).finalState.status = Order.OrderStatus.failed ∧
      ∃ msg, (Order.orderWorkflow input env).outcome = Except.error msg) ∧
    (env.approvalObserved = none →
      (Order.orderWorkflow input env).comps
          = [Order.CompCall.refundPayment pv.paymentId,
             Order.CompCall.releaseInventory rv.reservationId] ∧
      (Order.orderWorkflow input env).finalState.status = Order.OrderStatus.failed ∧
      (Order.orderWorkflow input env).outcome
        = Except.error ("Order rejected: " ++ "Approval timeout")) := by
  have hA : decide (input.totalAmount > 5000) = true := by
    rw [hamt]; decide
  refine ⟨?_, ?_, ?_, ?_⟩
  · rcases hao : env.approvalObserved with _ | d
    · simp [Order.orderWorkflow, Order.orderFail, hres, hpay, hc0, hc1, hA, hao]
    · cases hb : d.approved
      · simp [Order.orderWorkflow, Order.orderFail, hres, hpay, hc0, hc1, hA, hao, hb]
      · cases hc2 : cancelledAt env.cancelAt 2
        · rcases hs : env.shipRes with e | sv
          · simp [Order.orderWorkflow, Order.orderShip, Order.orderFail,
              hres, hpay, hc0, hc1, hA, hao, hb, hc2, hs]
          · simp [Order.orderWorkflow, Order.orderShip, Order.orderFail,
              hres, hpay, hc0, hc1, hA, hao, hb, hc2, hs]
        · simp [Order.orderWorkflow, Order.orderShip, Order.orderFail,
            hres, hpay, hc0, hc1, hA, hao, hb, hc2]
  · intro d sv hao hb hc2 hs
    simp only [Order.orderWorkflow, Order.orderShip, hres, hpay, hc0, hc1, hA,
      hao, hb, hc2, hs]
    simp
  · intro d hao hb
    simp only [Order.orderWorkflow, Order.orderFail, Order.compensate, Order.compErrsOf,
      hres, hpay, hc0, hc1, hA, hao, hb]
    simp
  · intro hao
    simp only [Order.orderWorkflow, Order.orderFail, Order.compensate, Order.compErrsOf,
      hres, hpay, hc0, hc1, hA, hao]
    simp

/-- Witness for C7 at a concrete run: a 10000-dollar order whose 24h
approval wait times out; the compensations refund the payment and
release the reservation and the awaiting_approval status was reached. -/
theorem claim_C7_witness :
    Order.OrderStatus.awaitingApproval ∈ (Order.orderWorkflow c7Input c7Env).statusHistory ∧
    (Order.orderWorkflow c7Input c7Env).comps
      = [Order.CompCall.refundPayment "p-7", Order.CompCall.releaseInventory "r-7"] :=
  ⟨(claim_C7 c7Input c7Env ⟨"r-7"⟩ ⟨"p-7"⟩ rfl rfl rfl rfl rfl).1,
   ((claim_C7 c7Input c7Env ⟨"r-7"⟩ ⟨"p-7"⟩ rfl rfl rfl rfl rfl).2.2.2 rfl).1⟩

/-- C8 (code bug): the SeededRNG constructor maps seed -2147483646 to
internal state 0 (the `state <= 0` fixup adds only 2146483646 once), so
next() returns the negative value -1/2147483646, contradicting the
source's own [0,1) annotation, and nextInt(0,9) returns -1, outside the
inclusive range [0,9].  For all other reachable states the update rule
is state = (state * 48271) mod (2^31 - 1) as the claim says. -/
theorem claim_C8 :
    ML.rngInit (-2147483646) = 0 ∧
    (ML.next (ML.rngInit (-2147483646))).2 = -(1 / 2147483646 : ℚ) ∧
    ¬ (0 ≤ (ML.next (ML.rngInit (-2147483646))).2) ∧
    (ML.nextInt (ML.rngInit (-2147483646)) 0 9).2 = -1 := by
  have h0 : ML.rngInit (-2147483646) = 0 := by decide
  have ht : Int.tmod (0 * 48271) 2147483647 = 0 := by decide
  rw [h0]
  refine ⟨rfl, ?_, ?_, ?_⟩
  · simp only [ML.next, ht]
    norm_num
  · simp only [ML.next, ht]
    norm_num
  · simp only [ML.nextInt, ML.next, ht]
    norm_num
section MLLemmas

@[simp] lemma callsPre (cs : List (Nat × Int)) (os : List (Nat × Option ML.ResearcherDecision))
    (out : ML.MLLoopOut) : (ML.MLLoopOut.pre cs os out).calls = cs ++ out.calls := by
  cases out <;> rfl

@[simp] lemma obsPre (cs : List (Nat × Int)) (os : List (Nat × Option ML.ResearcherDecision))
    (out : ML.MLLoopOut) : (ML.MLLoopOut.pre cs os out).obsOut = os ++ out.obsOut := by
  cases out <;> rfl

@[simp] lemma stOutPre (cs : List (Nat × Int)) (os : List (Nat × Option ML.ResearcherDecision))
    (out : ML.MLLoopOut) : (ML.MLLoopOut.pre cs os out).stOut = out.stOut := by
  cases out <;> rfl

lemma checkpointStep_cases (env : ML.MLEnv) (interval epoch : Nat) (loss : ℚ)
    (st1 : ML.MLState) :
    (∃ e, ML.checkpointStep env interval epoch loss st1 = .error e) ∨
    ML.checkpointStep env interval epoch loss st1 = .ok st1 ∨
    ML.checkpointStep env interval epoch loss st1
      = .ok { st1 with
              checkpoints := st1.checkpoints ++ [⟨epoch + 1, loss⟩]
              status := ML.TrainingStatus.training } := by
  unfold ML.checkpointStep
  cases h : (epoch + 1) % interval == 0
  · simp
  · cases hs : env.saveRes (epoch + 1) <;> simp

lemma pairwise_snoc {l : List ML.CheckpointInfo} {epoch : Nat} {loss : ℚ}
    (hb : ∀ c ∈ l, c.epoch ≤ epoch)
    (hp : (l.map fun c => c.epoch).Pairwise (· < ·)) :
    (((l ++ [(⟨epoch + 1, loss⟩ : ML.CheckpointInfo)]).map fun c => c.epoch).Pairwise
      (· < ·)) := by
  rw [List.map_append]
  refine List.pairwise_append.mpr ⟨hp, by simp, ?_⟩
  intro a ha b hb'
  simp only [List.map_cons, List.map_nil, List.mem_singleton] at hb'
  subst hb'
  simp only [List.mem_map] at ha
  obtain ⟨c, hc, rfl⟩ := ha
  have := hb c hc
  omega

lemma step_rec {out : ML.MLLoopOut} {epoch fuel : Nat} {seed : Int}
    {obsL : List (Nat × Option ML.ResearcherDecision)}
    (h1 : ∀ p ∈ out.calls, epoch + 1 ≤ p.1)
    (h2 : ((out.stOut.checkpoints.map fun c => c.epoch).Pairwise (· < ·)))
    (h3 : ∀ c ∈ out.stOut.checkpoints, c.epoch ≤ epoch + 1 + fuel) :
    (∀ p ∈ (ML.MLLoopOut.pre [(epoch, seed)] obsL out).calls, epoch ≤ p.1) ∧
    (((ML.MLLoopOut.pre [(epoch, seed)] obsL out).stOut.checkpoints.map
        fun c => c.epoch).Pairwise (· < ·)) ∧
    (∀ c ∈ (ML.MLLoopOut.pre [(epoch, seed)] obsL out).stOut.checkpoints,
      c.epoch ≤ epoch + (fuel + 1)) := by
  refine ⟨?_, by simpa using h2, ?_⟩
  · simp only [callsPre, List.mem_append, List.mem_singleton]
    rintro p (rfl | hpm)
    · exact le_refl _
    · exact le_trans (Nat.le_succ _) (h1 p hpm)
  · simp only [stOutPre]
    intro c hc
    have := h3 c hc
    omega

lemma mlLoop_inv (env : ML.MLEnv) (interval : Nat) :
    ∀ fuel epoch rngSt slot g st,
      (∀ c ∈ st.checkpoints, c.epoch ≤ epoch) →
      ((st.checkpoints.map fun c => c.epoch).Pairwise (· < ·)) →
      (∀ p ∈ (ML.mlLoop env interval fuel epoch rngSt slot g st).calls, epoch ≤ p.1) ∧
      (((ML.mlLoop env interval fuel epoch rngSt slot g st).stOut.checkpoints.map
          fun c => c.epoch).Pairwise (· < ·)) ∧
      (∀ c ∈ (ML.mlLoop env interval fuel epoch rngSt slot g st).stOut.checkpoints,
        c.epoch ≤ epoch + fuel) := by
  intro fuel
  induction fuel with
  | zero =>
    intro epoch rngSt slot g st hb hp
    refine ⟨?_, ?_, ?_⟩ <;>
      simp_all [ML.mlLoop, ML.MLLoopOut.calls, ML.MLLoopOut.stOut]
  | succ fuel ih =>
    intro epoch rngSt slot g st hb hp
    have hb' : ∀ c ∈ st.checkpoints, c.epoch ≤ epoch + (fuel + 1) := fun c hc =>
      le_trans (hb c hc) (Nat.le_add_right _ _)
    have hb2 : ∀ c ∈ st.checkpoints, c.epoch ≤ epoch + 1 := fun c hc =>
      le_trans (hb c hc) (Nat.le_succ _)
    have hbA : ∀ c ∈ st.checkpoints ++ [(⟨epoch + 1, (0 : ℚ)⟩ : ML.CheckpointInfo)],
        c.epoch ≤ epoch + 1 := by
      intro c hc
      rw [List.mem_append, List.mem_singleton] at hc
      rcases hc with hc | rfl
      · exact le_trans (hb c hc) (Nat.le_succ _)
      · exact le_refl _
    simp only [ML.mlLoop]
    cases hcan : cancelledAt env.cancelFrom epoch
    · simp only [hcan, Bool.false_eq_true, if_false]
      cases htr : env.trainRes epoch with
      | error e =>
        try dsimp only
        simp only [ML.MLLoopOut.calls, ML.MLLoopOut.stOut]
        refine ⟨?_, hp, hb'⟩
        intro p hpm
        rw [List.mem_singleton] at hpm
        subst hpm
        exact le_refl _
      | ok loss =>
        try dsimp only
        rcases checkpointStep_cases env interval epoch loss
            { st with
              currentEpoch := epoch
              currentLoss := some loss
              bestLoss := if ML.lossLt loss st.bestLoss then some loss else st.bestLoss }
          with ⟨e, hck⟩ | hck | hck <;>
          rw [hck] <;> try dsimp only
        · simp only [ML.MLLoopOut.calls, ML.MLLoopOut.stOut]
          refine ⟨?_, hp, hb'⟩
          intro p hpm
          rw [List.mem_singleton] at hpm
          subst hpm
          exact le_refl _
        · -- no checkpoint added this iteration
          cases hrev : (epoch + 1) % 10 == 0
          · simp only [hrev, Bool.false_eq_true, if_false]
            obtain ⟨h1, h2, h3⟩ := ih (epoch + 1) (ML.nextInt rngSt 0 1000000).1 slot g
              { st with
                currentEpoch := epoch
                currentLoss := some loss
                bestLoss := if ML.lossLt loss st.bestLoss then some loss else st.bestLoss }
              hb2 hp
            exact step_rec h1 h2 h3
          · simp only [hrev, if_true]
            try dsimp only
            cases hslot : slot with
            | some d =>
              try dsimp only
              cases hact : d.action <;> try dsimp only
              · obtain ⟨h1, h2, h3⟩ := ih (epoch + 1) (ML.nextInt rngSt 0 1000000).1 none (g + 1)
                  { st with
                    currentEpoch := epoch
                    currentLoss := some loss
                    bestLoss := if ML.lossLt loss st.bestLoss then some loss else st.bestLoss
                    status := ML.TrainingStatus.training }
                  hb2 hp
                exact step_rec h1 h2 h3
              · obtain ⟨h1, h2, h3⟩ := ih (epoch + 1) (ML.nextInt rngSt 0 1000000).1 none (g + 1)
                  { st with
                    currentEpoch := epoch
                    currentLoss := some loss
                    bestLoss := if ML.lossLt loss st.bestLoss then some loss else st.bestLoss
                    status := ML.TrainingStatus.training }
                  hb2 hp
                exact step_rec h1 h2 h3
              · simp only [ML.MLLoopOut.calls, ML.MLLoopOut.stOut]
                refine ⟨?_, hp, ?_⟩
                · intro p hpm
                  rw [List.mem_singleton] at hpm
                  subst hpm
                  exact le_refl _
                · intro c hc
                  exact le_trans (hb c hc) (Nat.le_add_right _ _)
            | none =>
              try dsimp only
              cases hra : env.researcherAt g with
              | some d =>
                try dsimp only
                cases hact : d.action <;> try dsimp only
                · obtain ⟨h1, h2, h3⟩ := ih (epoch + 1) (ML.nextInt rngSt 0 1000000).1 none (g + 1)
                    { st with
                      currentEpoch := epoch
                      currentLoss := some loss
                      bestLoss := if ML.lossLt loss st.bestLoss then some loss else st.bestLoss
                      status := ML.TrainingStatus.training }
                    hb2 hp
                  exact step_rec h1 h2 h3
                · obtain ⟨h1, h2, h3⟩ := ih (epoch + 1) (ML.nextInt rngSt 0 1000000).1 none (g + 1)
                    { st with
                      currentEpoch := epoch
                      currentLoss := some loss
                      bestLoss := if ML.lossLt loss st.bestLoss then some loss else st.bestLoss
                      status := ML.TrainingStatus.training }
                    hb2 hp
                  exact step_rec h1 h2 h3
                · simp only [ML.MLLoopOut.calls, ML.MLLoopOut.stOut]
                  refine ⟨?_, hp, ?_⟩
                  · intro p hpm
                    rw [List.mem_singleton] at hpm
                    subst hpm
                    exact le_refl _
                  · intro c hc
                    exact le_trans (hb c hc) (Nat.le_add_right _ _)
              | none =>
                try dsimp only
                obtain ⟨h1, h2, h3⟩ := ih (epoch + 1) (ML.nextInt rngSt 0 1000000).1 none (g + 1)
                  { st with
                    currentEpoch := epoch
                    currentLoss := some loss
                    bestLoss := if ML.lossLt loss st.bestLoss then some loss else st.bestLoss
                    status := ML.TrainingStatus.training }
                  hb2 hp
                exact step_rec h1 h2 h3
        · -- checkpoint appended at epoch + 1
          have hbA' : ∀ c ∈ st.checkpoints ++ [(⟨epoch + 1, loss⟩ : ML.CheckpointInfo)],
              c.epoch ≤ epoch + 1 := by
            intro c hc
            rw [List.mem_append, List.mem_singleton] at hc
            rcases hc with hc | rfl
            · exact le_trans (hb c hc) (Nat.le_succ _)
            · exact le_refl _
          have hpA := @pairwise_snoc st.checkpoints epoch loss hb hp
          cases hrev : (epoch + 1) % 10 == 0
          · simp only [hrev, Bool.false_eq_true, if_false]
            obtain ⟨h1, h2, h3⟩ := ih (epoch + 1) (ML.nextInt rngSt 0 1000000).1 slot g
              { currentEpoch := epoch
                currentLoss := some loss
                bestLoss := if ML.lossLt loss st.bestLoss then some loss else st.bestLoss
                checkpoints := st.checkpoints ++ [⟨epoch + 1, loss⟩]
                status := ML.TrainingStatus.training }
              hbA' hpA
            exact step_rec h1 h2 h3
          · simp only [hrev, if_true]
            try dsimp only
            cases hslot : slot with
            | some d =>
              try dsimp only
              cases hact : d.action <;> try dsimp only
              · obtain ⟨h1, h2, h3⟩ := ih (epoch + 1) (ML.nextInt rngSt 0 1000000).1 none (g + 1)
                  { currentEpoch := epoch
                    currentLoss := some loss
                    bestLoss := if ML.lossLt loss st.bestLoss then some loss else st.bestLoss
                    checkpoints := st.checkpoints ++ [⟨epoch + 1, loss⟩]
                    status := ML.TrainingStatus.training }
                  hbA' hpA
                exact step_rec h1 h2 h3
              · obtain ⟨h1, h2, h3⟩ := ih (epoch + 1) (ML.nextInt rngSt 0 1000000).1 none (g + 1)
                  { currentEpoch := epoch
                    currentLoss := some loss
                    bestLoss := if ML.lossLt loss st.bestLoss then some loss else st.bestLoss
                    checkpoints := st.checkpoints ++ [⟨epoch + 1, loss⟩]
                    status := ML.TrainingStatus.training }
                  hbA' hpA
                exact step_rec h1 h2 h3
              · simp only [ML.MLLoopOut.calls, ML.MLLoopOut.stOut]
                refine ⟨?_, by simpa using hpA, ?_⟩
                · intro p hpm
                  rw [List.mem_singleton] at hpm
                  subst hpm
                  exact le_refl _
                · intro c hc
                  have := hbA' c (by simpa using hc)
                  omega
            | none =>
              try dsimp only
              cases hra : env.researcherAt g with
              | some d =>
                try dsimp only
                cases hact : d.action <;> try dsimp only
                · obtain ⟨h1, h2, h3⟩ := ih (epoch + 1) (ML.nextInt rngSt 0 1000000).1 none (g + 1)
                    { currentEpoch := epoch
                      currentLoss := some loss
                      bestLoss := if ML.lossLt loss st.bestLoss then some loss else st.bestLoss
                      checkpoints := st.checkpoints ++ [⟨epoch + 1, loss⟩]
                      status := ML.TrainingStatus.training }
                    hbA' hpA
                  exact step_rec h1 h2 h3
                · obtain ⟨h1, h2, h3⟩ := ih (epoch + 1) (ML.nextInt rngSt 0 1000000).1 none (g + 1)
                    { currentEpoch := epoch
                      currentLoss := some loss
                      bestLoss := if ML.lossLt loss st.bestLoss then some loss else st.bestLoss
                      checkpoints := st.checkpoints ++ [⟨epoch + 1, loss⟩]
                      status := ML.TrainingStatus.training }
                    hbA' hpA
                  exact step_rec h1 h2 h3
                · simp only [ML.MLLoopOut.calls, ML.MLLoopOut.stOut]
                  refine ⟨?_, by simpa using hpA, ?_⟩
                  · intro p hpm
                    rw [List.mem_singleton] at hpm
                    subst hpm
                    exact le_refl _
                  · intro c hc
                    have := hbA' c (by simpa using hc)
                    omega
              | none =>
                try dsimp only
                obtain ⟨h1, h2, h3⟩ := ih (epoch + 1) (ML.nextInt rngSt 0 1000000).1 none (g + 1)
                  { currentEpoch := epoch
                    currentLoss := some loss
                    bestLoss := if ML.lossLt loss st.bestLoss then some loss else st.bestLoss
                    checkpoints := st.checkpoints ++ [⟨epoch + 1, loss⟩]
                    status := ML.TrainingStatus.training }
                  hbA' hpA
                exact step_rec h1 h2 h3
    · simp only [hcan, if_true]
      try dsimp only
      simp only [ML.MLLoopOut.calls, ML.MLLoopOut.stOut]
      exact ⟨by simp, hp, hb'⟩

end MLLemmas

lemma mlLoop_obs (env : ML.MLEnv) (interval : Nat) :
    ∀ fuel epoch rngSt g st,
      ∀ pr ∈ (ML.mlLoop env interval fuel epoch rngSt none g st).obsOut,
        pr.2 = env.researcherAt pr.1 := by
  intro fuel
  induction fuel with
  | zero =>
    intro epoch rngSt g st pr hpr
    simp [ML.mlLoop, ML.MLLoopOut.obsOut] at hpr
  | succ fuel ih =>
    intro epoch rngSt g st pr hpr
    rw [ML.mlLoop] at hpr
    rcases hcan : cancelledAt env.cancelFrom epoch with _ | _ <;>
      rw [hcan] at hpr <;> simp only [Bool.false_eq_true, if_false, if_true] at hpr
    · cases htr : env.trainRes epoch <;> rw [htr] at hpr <;> dsimp only at hpr
      · simp [ML.MLLoopOut.obsOut] at hpr
      · rcases checkpointStep_cases env interval epoch _
            { st with
              currentEpoch := epoch
              currentLoss := some _
              bestLoss := if ML.lossLt _ st.bestLoss then some _ else st.bestLoss }
          with ⟨e, hck⟩ | hck | hck <;>
          rw [hck] at hpr <;> dsimp only at hpr
        · simp [ML.MLLoopOut.obsOut] at hpr
        · cases hrev : (epoch + 1) % 10 == 0 <;>
            rw [hrev] at hpr <;>
            simp only [Bool.false_eq_true, if_false, if_true] at hpr <;>
            try dsimp only at hpr
          · rw [obsPre] at hpr
            simp only [List.nil_append] at hpr
            exact ih (epoch + 1) _ g _ pr hpr
          · cases hra : env.researcherAt g <;> rw [hra] at hpr <;> try dsimp only at hpr
            · rw [obsPre] at hpr
              rcases List.mem_append.mp hpr with hm | hm
              · rw [List.mem_singleton] at hm
                subst hm
                exact hra.symm
              · exact ih (epoch + 1) _ (g + 1) _ pr hm
            · rename_i d
              cases hact : d.action <;> rw [hact] at hpr <;> dsimp only at hpr
              · rw [obsPre] at hpr
                rcases List.mem_append.mp hpr with hm | hm
                · rw [List.mem_singleton] at hm
                  subst hm
                  exact hra.symm
                · exact ih (epoch + 1) _ (g + 1) _ pr hm
              · rw [obsPre] at hpr
                rcases List.mem_append.mp hpr with hm | hm
                · rw [List.mem_singleton] at hm
                  subst hm
                  exact hra.symm
                · exact ih (epoch + 1) _ (g + 1) _ pr hm
              · simp only [ML.MLLoopOut.obsOut, List.mem_singleton] at hpr
                subst hpr
                exact hra.symm
        · cases hrev : (epoch + 1) % 10 == 0 <;>
            rw [hrev] at hpr <;>
            simp only [Bool.false_eq_true, if_false, if_true] at hpr <;>
            try dsimp only at hpr
          · rw [obsPre] at hpr
            simp only [List.nil_append] at hpr
            exact ih (epoch + 1) _ g _ pr hpr
          · cases hra : env.researcherAt g <;> rw [hra] at hpr <;> try dsimp only at hpr
            · rw [obsPre] at hpr
              rcases List.mem_append.mp hpr with hm | hm
              · rw [List.mem_singleton] at hm
                subst hm
                exact hra.symm
              · exact ih (epoch + 1) _ (g + 1) _ pr hm
            · rename_i d
              cases hact : d.action <;> rw [hact] at hpr <;> dsimp only at hpr
              · rw [obsPre] at hpr
                rcases List.mem_append.mp hpr with hm | hm
                · rw [List.mem_singleton] at hm
                  subst hm
                  exact hra.symm
                · exact ih (epoch + 1) _ (g + 1) _ pr hm
              · rw [obsPre] at hpr
                rcases List.mem_append.mp hpr with hm | hm
                · rw [List.mem_singleton] at hm
                  subst hm
                  exact hra.symm
                · exact ih (epoch + 1) _ (g + 1) _ pr hm
              · simp only [ML.MLLoopOut.obsOut, List.mem_singleton] at hpr
                subst hpr
                exact hra.symm
    · simp [ML.MLLoopOut.obsOut] at hpr

lemma mlWorkflow_shape (cfg : ML.TrainingConfig) (resume : Option ML.CheckpointInfo)
    (env : ML.MLEnv) :
    ((ML.mlTrainingWorkflow cfg resume env).trainCalls = [] ∧
      (ML.mlTrainingWorkflow cfg resume env).checkpoints
        = (ML.mlInitState resume).checkpoints ∧
      (ML.mlTrainingWorkflow cfg resume env).reviewObs = []) ∨
    ((ML.mlTrainingWorkflow cfg resume env).trainCalls
        = (ML.mlLoop env cfg.checkpointInterval (cfg.epochs - ML.mlStart resume)
            (ML.mlStart resume) (ML.rngInit (ML.seedOf cfg env)) none 0
            { ML.mlInitState resume with status := ML.TrainingStatus.training }).calls ∧
      (ML.mlTrainingWorkflow cfg resume env).checkpoints
        = (ML.mlLoop env cfg.checkpointInterval (cfg.epochs - ML.mlStart resume)
            (ML.mlStart resume) (ML.rngInit (ML.seedOf cfg env)) none 0
            { ML.mlInitState resume with status := ML.TrainingStatus.training }).stOut.checkpoints ∧
      (ML.mlTrainingWorkflow cfg resume env).reviewObs
        = (ML.mlLoop env cfg.checkpointInterval (cfg.epochs - ML.mlStart resume)
            (ML.mlStart resume) (ML.rngInit (ML.seedOf cfg env)) none 0
            { ML.mlInitState resume with status := ML.TrainingStatus.training }).obsOut) := by
  simp only [ML.mlTrainingWorkflow]
  cases env.initRes with
  | error e => left; exact ⟨rfl, rfl, rfl⟩
  | ok u =>
    right
    try dsimp only
    rcases hout : ML.mlLoop env cfg.checkpointInterval (cfg.epochs - ML.mlStart resume)
        (ML.mlStart resume) (ML.rngInit (ML.seedOf cfg env)) none 0
        { ML.mlInitState resume with status := ML.TrainingStatus.training } with
      ⟨st, r, calls, obs⟩ | ⟨e, st, calls, obs⟩ <;> try dsimp only
    · cases env.evalRes <;> try dsimp only <;> exact ⟨rfl, rfl, rfl⟩
    · exact ⟨rfl, rfl, rfl⟩

/-- C3: for every execution of mlTrainingWorkflow resuming from a
checkpoint with index k, trainEpoch is never invoked for an epoch index
below k, and the epoch indices of the checkpoints recorded over the
execution are strictly increasing. -/
theorem claim_C3 (cfg : ML.TrainingConfig) (env : ML.MLEnv)
    (resume : Option ML.CheckpointInfo) (k : ML.CheckpointInfo)
    (hres : resume = some k) :
    (∀ p ∈ (ML.mlTrainingWorkflow cfg resume env).trainCalls, k.epoch ≤ p.1) ∧
    (((ML.mlTrainingWorkflow cfg resume env).checkpoints.map
        fun c => c.epoch).Pairwise (· < ·)) := by
  subst hres
  obtain ⟨h1, h2, h3⟩ := mlLoop_inv env cfg.checkpointInterval
    (cfg.epochs - ML.mlStart (some k)) (ML.mlStart (some k))
    (ML.rngInit (ML.seedOf cfg env)) none 0
    { ML.mlInitState (some k) with status := ML.TrainingStatus.training }
    (by simp [ML.mlInitState, ML.mlStart]) (by simp [ML.mlInitState, ML.mlStart])
  rcases mlWorkflow_shape cfg (some k) env with ⟨hc, hk, _⟩ | ⟨hc, hk, _⟩
  · constructor
    · rw [hc]; simp
    · rw [hk]; simp [ML.mlInitState]
  · constructor
    · rw [hc]
      intro p hpm
      have := h1 p hpm
      simpa [ML.mlStart] using this
    · rw [hk]; exact h2

/-- Witness for C3 at a concrete resumed run: resuming from the
checkpoint at epoch 2 of a 5-epoch training, no trainEpoch call has
index below 2 and the recorded checkpoint indices strictly increase. -/
theorem claim_C3_witness :
    (∀ p ∈ (ML.mlTrainingWorkflow c3Cfg (some c3Resume) c3Env).trainCalls, 2 ≤ p.1) ∧
    (((ML.mlTrainingWorkflow c3Cfg (some c3Resume) c3Env).checkpoints.map
        fun c => c.epoch).Pairwise (· < ·)) :=
  claim_C3 c3Cfg c3Env (some c3Resume) c3Resume rfl
section CALemmas

@[simp] lemma s1EventsPre (ev : List CA.AEvent) (out : CA.StageOneOut) :
    (CA.StageOneOut.pre ev out).events = ev ++ out.events := by
  cases out <;> rfl

@[simp] lemma s1StOutPre (ev : List CA.AEvent) (out : CA.StageOneOut) :
    (CA.StageOneOut.pre ev out).stOut = out.stOut := by
  cases out <;> rfl

@[simp] lemma bEventsPre (ev : List CA.AEvent) (out : CA.BatchOut) :
    (CA.BatchOut.pre ev out).events = ev ++ out.events := by
  cases out <;> rfl

@[simp] lemma bStOutPre (ev : List CA.AEvent) (out : CA.BatchOut) :
    (CA.BatchOut.pre ev out).stOut = out.stOut := by
  cases out <;> rfl

@[simp] lemma caPreTrace (ev : List CA.AEvent) (r : CA.CAResult) :
    (CA.CAResult.pre ev r).trace = ev ++ r.trace := rfl

@[simp] lemma caPreOutcome (ev : List CA.AEvent) (r : CA.CAResult) :
    (CA.CAResult.pre ev r).outcome = r.outcome := rfl

@[simp] lemma caPreFinal (ev : List CA.AEvent) (r : CA.CAResult) :
    (CA.CAResult.pre ev r).finalState = r.finalState := rfl

@[simp] lemma gateObs_append (l1 l2 : List CA.AEvent) :
    CA.gateObs (l1 ++ l2) = CA.gateObs l1 ++ CA.gateObs l2 :=
  List.filterMap_append l1 l2 _

@[simp] lemma gateObs_nil : CA.gateObs [] = [] := rfl

@[simp] lemma gateObs_analyze (i : Nat) (c : ℚ) (rest : List CA.AEvent) :
    CA.gateObs (CA.AEvent.analyze i c :: rest) = CA.gateObs rest := rfl

@[simp] lemma gateObs_check (b : Bool) (rest : List CA.AEvent) :
    CA.gateObs (CA.AEvent.check b :: rest) = CA.gateObs rest := rfl

@[simp] lemma gateObs_gate (g : Nat) (o : Option CA.BudgetApproval) (rest : List CA.AEvent) :
    CA.gateObs (CA.AEvent.gate g o :: rest) = (g, o) :: CA.gateObs rest := rfl

@[simp] lemma gateObs_progressE (i : Nat) (rest : List CA.AEvent) :
    CA.gateObs (CA.AEvent.progress i :: rest) = CA.gateObs rest := rfl

@[simp] lemma gateObs_planGen (c : ℚ) (rest : List CA.AEvent) :
    CA.gateObs (CA.AEvent.planGen c :: rest) = CA.gateObs rest := rfl

@[simp] lemma gateObs_planGate (o : Option CA.PlanApproval) (rest : List CA.AEvent) :
    CA.gateObs (CA.AEvent.planGate o :: rest) = CA.gateObs rest := rfl

@[simp] lemma gateObs_batch (j : Nat) (c : ℚ) (rest : List CA.AEvent) :
    CA.gateObs (CA.AEvent.batch j c :: rest) = CA.gateObs rest := rfl

@[simp] lemma gateObs_test (j : Nat) (b : Bool) (rest : List CA.AEvent) :
    CA.gateObs (CA.AEvent.test j b :: rest) = CA.gateObs rest := rfl

@[simp] lemma gateObs_rollback (j : Nat) (rest : List CA.AEvent) :
    CA.gateObs (CA.AEvent.rollback j :: rest) = CA.gateObs rest := rfl

@[simp] lemma gateObs_notify (rest : List CA.AEvent) :
    CA.gateObs (CA.AEvent.notifyEvt :: rest) = CA.gateObs rest := rfl

@[simp] lemma gateObs_progress (i total : Nat) :
    CA.gateObs (CA.progressEvents i total) = [] := by
  unfold CA.progressEvents
  split <;> rfl

lemma caLoop_gateObs (env : CA.CAEnv) (budget : Option ℚ) (total : Nat) :
    ∀ rest i g analyses st,
      ∀ pr ∈ CA.gateObs (CA.caLoop env budget total rest i g none analyses st).events,
        pr.2 = env.budgetSignalAt pr.1 := by
  intro rest
  induction rest with
  | nil =>
    intro i g analyses st pr hpr
    simp [CA.caLoop, CA.StageOneOut.events] at hpr
  | cons f rest ih =>
    intro i g analyses st pr hpr
    rw [CA.caLoop] at hpr
    cases hcan : cancelledAt env.cancelAt i <;> rw [hcan] at hpr <;>
      simp only [Bool.false_eq_true, if_false, if_true] at hpr
    · cases han : env.analyzeRes i <;> rw [han] at hpr <;> try dsimp only at hpr
      · simp [CA.StageOneOut.events] at hpr
      · rename_i a
        cases hex : decide (jsOrQ budget 100 < st.costSoFar + a.cost) <;>
          rw [hex] at hpr <;>
          simp only [Bool.false_eq_true, if_false, if_true] at hpr <;>
          try dsimp only at hpr
        · rw [s1EventsPre] at hpr
          simp only [List.append_assoc, gateObs_append, gateObs_progress, gateObs_analyze,
            gateObs_check, gateObs_nil, List.nil_append, List.append_nil] at hpr
          exact ih (i + 1) g (analyses ++ [a]) _ pr hpr
        · cases hobs : env.budgetSignalAt g <;> rw [hobs] at hpr <;> try dsimp only at hpr
          · simp only [CA.StageOneOut.events, gateObs_append, gateObs_analyze, gateObs_check,
              gateObs_notify, gateObs_gate, gateObs_nil, List.nil_append] at hpr
            rw [List.mem_singleton] at hpr
            subst hpr
            exact hobs.symm
          · rename_i ap
            cases hap : ap.approved <;> rw [hap] at hpr <;>
              simp only [Bool.false_eq_true, if_false, if_true] at hpr <;>
              try dsimp only at hpr
            · simp only [CA.StageOneOut.events, gateObs_append, gateObs_analyze, gateObs_check,
                gateObs_notify, gateObs_gate, gateObs_nil, List.nil_append] at hpr
              rw [List.mem_singleton] at hpr
              subst hpr
              exact hobs.symm
            · rw [s1EventsPre] at hpr
              simp only [List.append_assoc, gateObs_append, gateObs_progress, gateObs_analyze,
                gateObs_check, gateObs_notify, gateObs_gate, gateObs_nil, List.nil_append,
                List.append_nil, List.cons_append, List.mem_cons] at hpr
              rcases hpr with hpr | hpr
              · subst hpr
                exact hobs.symm
              · exact ih (i + 1) (g + 1) (analyses ++ [a]) _ pr hpr
    · simp [CA.StageOneOut.events] at hpr

end CALemmas

lemma caLoop_step (env : CA.CAEnv) (budget : Option ℚ) (total : Nat) (f : String)
    (rest : List String) (i g : Nat) (slot : Option CA.BudgetApproval)
    (analyses : List CA.FileAnalysis) (st : CA.AnalysisState) :
    (cancelledAt env.cancelAt i = true ∧
      CA.caLoop env budget total (f :: rest) i g slot analyses st
        = .ret { st with status := .cancelled } []) ∨
    (∃ e, env.analyzeRes i = .error e ∧
      CA.caLoop env budget total (f :: rest) i g slot analyses st = .err e st []) ∨
    (∃ a, env.analyzeRes i = .ok a ∧
      decide (jsOrQ budget 100 < st.costSoFar + a.cost) = false ∧
      CA.caLoop env budget total (f :: rest) i g slot analyses st
        = CA.StageOneOut.pre
            ([CA.AEvent.analyze i (st.costSoFar + a.cost), CA.AEvent.check false]
              ++ CA.progressEvents i total)
            (CA.caLoop env budget total rest (i + 1) g slot (analyses ++ [a])
              { st with
                filesAnalyzed := i + 1
                costSoFar := st.costSoFar + a.cost
                budgetRemaining := jsOrQ budget 100 - (st.costSoFar + a.cost)
                issues := st.issues ++ a.issues })) ∨
    (∃ a obs, env.analyzeRes i = .ok a ∧
      decide (jsOrQ budget 100 < st.costSoFar + a.cost) = true ∧
      (match slot with | some d => some d | none => env.budgetSignalAt g) = obs ∧
      ((obs = none ∨ (∃ ap, obs = some ap ∧ ap.approved = false)) ∧
        CA.caLoop env budget total (f :: rest) i g slot analyses st
          = .ret
              { st with
                filesAnalyzed := i + 1
                costSoFar := st.costSoFar + a.cost
                budgetRemaining := jsOrQ budget 100 - (st.costSoFar + a.cost)
                issues := st.issues ++ a.issues
                status := .cancelled
                currentStage := "budget-exceeded" }
              ([CA.AEvent.analyze i (st.costSoFar + a.cost), CA.AEvent.check true]
                ++ [CA.AEvent.notifyEvt, CA.AEvent.gate g obs]) ∨
       (∃ ap, obs = some ap ∧ ap.approved = true ∧
        CA.caLoop env budget total (f :: rest) i g slot analyses st
          = CA.StageOneOut.pre
              (([CA.AEvent.analyze i (st.costSoFar + a.cost), CA.AEvent.check true]
                ++ [CA.AEvent.notifyEvt, CA.AEvent.gate g obs])
                ++ CA.progressEvents i total)
              (CA.caLoop env budget total rest (i + 1) (g + 1) none (analyses ++ [a])
                { CA.applyNewBudget ap
                    { st with
                      filesAnalyzed := i + 1
                      costSoFar := st.costSoFar + a.cost
                      budgetRemaining := jsOrQ budget 100 - (st.costSoFar + a.cost)
                      issues := st.issues ++ a.issues
                      status := .budgetExceeded
                      currentStage := "awaiting-budget-approval" } with
                  status := CA.AnalysisStatus.analyzing })))) := by
  simp only [CA.caLoop]
  cases hcan : cancelledAt env.cancelAt i
  · cases han : env.analyzeRes i with
    | error e =>
      right; left
      refine ⟨e, by first | rfl | assumption, ?_⟩
      simp only [hcan, Bool.false_eq_true, if_false, han]
    | ok a =>
      cases hex : decide (jsOrQ budget 100 < st.costSoFar + a.cost) with
      | false =>
        right; right; left
        refine ⟨a, by first | rfl | assumption, by first | rfl | assumption, ?_⟩
        simp only [hcan, Bool.false_eq_true, if_false, han, hex]
      | true =>
        right; right; right
        refine ⟨a, (match slot with | some d => some d | none => env.budgetSignalAt g),
          by first | rfl | assumption, by first | rfl | assumption, rfl, ?_⟩
        rcases hobs : (match slot with | some d => some d | none => env.budgetSignalAt g) with
          _ | ap
        · left
          refine ⟨Or.inl (by first | rfl | assumption), ?_⟩
          simp only [hcan, Bool.false_eq_true, if_false, if_true, han, hex, hobs]
        · cases hap : ap.approved with
          | false =>
            left
            refine ⟨Or.inr ⟨ap, by first | rfl | assumption, by first | rfl | assumption⟩, ?_⟩
            simp only [hcan, Bool.false_eq_true, if_false, if_true, han, hex, hobs, hap]
          | true =>
            right
            refine ⟨ap, by first | rfl | assumption, by first | rfl | assumption, ?_⟩
            simp only [hcan, Bool.false_eq_true, if_false, if_true, han, hex, hobs, hap]
  · left
    refine ⟨by first | rfl | assumption, ?_⟩
    simp only [hcan, if_true]

@[simp] lemma applyNB_cost (ap : CA.BudgetApproval) (st : CA.AnalysisState) :
    (CA.applyNewBudget ap st).costSoFar = st.costSoFar := by
  unfold CA.applyNewBudget
  cases ap.newBudget
  · rfl
  · dsimp only
    split <;> rfl

@[simp] lemma applyNB_status (ap : CA.BudgetApproval) (st : CA.AnalysisState) :
    (CA.applyNewBudget ap st).status = st.status := by
  unfold CA.applyNewBudget
  cases ap.newBudget
  · rfl
  · dsimp only
    split <;> rfl

lemma mem_progress {e : CA.AEvent} {i total : Nat} (h : e ∈ CA.progressEvents i total) :
    e = CA.AEvent.progress i := by
  unfold CA.progressEvents at h
  rcases Bool.eq_false_or_eq_true (i % 10 == 0 || i == total - 1) with hc | hc <;>
    rw [hc] at h <;> simp at h
  exact h

lemma pre_eq_next {ev : List CA.AEvent} {out : CA.StageOneOut} {a : List CA.FileAnalysis}
    {g : Nat} {s : Option CA.BudgetApproval} {st : CA.AnalysisState} {tr : List CA.AEvent}
    (h : CA.StageOneOut.pre ev out = .next a g s st tr) :
    ∃ tr', out = .next a g s st tr' ∧ tr = ev ++ tr' := by
  cases out <;> simp [CA.StageOneOut.pre] at h
  obtain ⟨h1, h2, h3, h4, h5⟩ := h
  subst h1; subst h2; subst h3; subst h4
  exact ⟨_, rfl, h5.symm⟩

lemma pre_eq_ret {ev : List CA.AEvent} {out : CA.StageOneOut} {st : CA.AnalysisState}
    {tr : List CA.AEvent}
    (h : CA.StageOneOut.pre ev out = .ret st tr) :
    ∃ tr', out = .ret st tr' ∧ tr = ev ++ tr' := by
  cases out <;> simp [CA.StageOneOut.pre] at h
  obtain ⟨h1, h2⟩ := h
  subst h1
  exact ⟨_, rfl, h2.symm⟩

lemma caLoop_noRefactor (env : CA.CAEnv) (budget : Option ℚ) (total : Nat) :
    ∀ rest i g slot analyses st,
      ∀ e ∈ (CA.caLoop env budget total rest i g slot analyses st).events,
        CA.isRefactorCall e = false := by
  intro rest
  induction rest with
  | nil =>
    intro i g slot analyses st e he
    simp [CA.caLoop, CA.StageOneOut.events] at he
  | cons f rest ih =>
    intro i g slot analyses st e he
    rcases caLoop_step env budget total f rest i g slot analyses st with
      ⟨_, heq⟩ | ⟨e', _, heq⟩ | ⟨a, _, _, heq⟩ |
      ⟨a, obs, _, _, _, ⟨_, heq⟩ | ⟨ap, _, _, heq⟩⟩ <;>
      rw [heq] at he
    · simp [CA.StageOneOut.events] at he
    · simp [CA.StageOneOut.events] at he
    · rw [s1EventsPre] at he
      simp only [List.append_assoc, List.cons_append, List.nil_append, List.mem_append,
        List.mem_cons, List.not_mem_nil, or_false] at he
      rcases he with he | he | he | he
      · subst he; rfl
      · subst he; rfl
      · rw [mem_progress he]; rfl
      · exact ih (i + 1) g slot (analyses ++ [a]) _ e he
    · simp only [CA.StageOneOut.events, List.append_assoc, List.cons_append, List.nil_append,
        List.mem_append, List.mem_cons, List.not_mem_nil, or_false] at he
      rcases he with he | he | he | he <;> subst he <;> rfl
    · rw [s1EventsPre] at he
      simp only [List.append_assoc, List.cons_append, List.nil_append, List.mem_append,
        List.mem_cons, List.not_mem_nil, or_false] at he
      rcases he with he | he | he | he | he | he
      · subst he; rfl
      · subst he; rfl
      · subst he; rfl
      · subst he; rfl
      · rw [mem_progress he]; rfl
      · exact ih (i + 1) (g + 1) none (analyses ++ [a]) _ e he

@[simp] lemma cfa_nil : CA.checkFollowsAnalyze [] = true := rfl

@[simp] lemma cfa_check (b : Bool) (t : List CA.AEvent) :
    CA.checkFollowsAnalyze (CA.AEvent.check b :: t) = CA.checkFollowsAnalyze t := rfl

@[simp] lemma cfa_gate (g : Nat) (o : Option CA.BudgetApproval) (t : List CA.AEvent) :
    CA.checkFollowsAnalyze (CA.AEvent.gate g o :: t) = CA.checkFollowsAnalyze t := rfl

@[simp] lemma cfa_progressE (i : Nat) (t : List CA.AEvent) :
    CA.checkFollowsAnalyze (CA.AEvent.progress i :: t) = CA.checkFollowsAnalyze t := rfl

@[simp] lemma cfa_planGen (c : ℚ) (t : List CA.AEvent) :
    CA.checkFollowsAnalyze (CA.AEvent.planGen c :: t) = CA.checkFollowsAnalyze t := rfl

@[simp] lemma cfa_planGate (o : Option CA.PlanApproval) (t : List CA.AEvent) :
    CA.checkFollowsAnalyze (CA.AEvent.planGate o :: t) = CA.checkFollowsAnalyze t := rfl

@[simp] lemma cfa_batch (j : Nat) (c : ℚ) (t : List CA.AEvent) :
    CA.checkFollowsAnalyze (CA.AEvent.batch j c :: t) = CA.checkFollowsAnalyze t := rfl

@[simp] lemma cfa_test (j : Nat) (b : Bool) (t : List CA.AEvent) :
    CA.checkFollowsAnalyze (CA.AEvent.test j b :: t) = CA.checkFollowsAnalyze t := rfl

@[simp] lemma cfa_rollback (j : Nat) (t : List CA.AEvent) :
    CA.checkFollowsAnalyze (CA.AEvent.rollback j :: t) = CA.checkFollowsAnalyze t := rfl

@[simp] lemma cfa_notify (t : List CA.AEvent) :
    CA.checkFollowsAnalyze (CA.AEvent.notifyEvt :: t) = CA.checkFollowsAnalyze t := rfl

@[simp] lemma cfa_analyze_check (i : Nat) (c : ℚ) (b : Bool) (t : List CA.AEvent) :
    CA.checkFollowsAnalyze (CA.AEvent.analyze i c :: CA.AEvent.check b :: t)
      = CA.checkFollowsAnalyze (CA.AEvent.check b :: t) := by
  simp [CA.checkFollowsAnalyze]

@[simp] lemma cfa_progress_append (i total : Nat) (t : List CA.AEvent) :
    CA.checkFollowsAnalyze (CA.progressEvents i total ++ t) = CA.checkFollowsAnalyze t := by
  unfold CA.progressEvents
  split
  · simp
  · simp

lemma caLoop_cfa (env : CA.CAEnv) (budget : Option ℚ) (total : Nat) :
    ∀ rest i g slot analyses st s,
      CA.checkFollowsAnalyze ((CA.caLoop env budget total rest i g slot analyses st).events ++ s)
        = CA.checkFollowsAnalyze s := by
  intro rest
  induction rest with
  | nil =>
    intro i g slot analyses st s
    simp [CA.caLoop, CA.StageOneOut.events]
  | cons f rest ih =>
    intro i g slot analyses st s
    rcases caLoop_step env budget total f rest i g slot analyses st with
      ⟨_, heq⟩ | ⟨e', _, heq⟩ | ⟨a, _, _, heq⟩ |
      ⟨a, obs, _, _, _, ⟨_, heq⟩ | ⟨ap, _, _, heq⟩⟩
    · rw [heq]
      simp [CA.StageOneOut.events]
    · rw [heq]
      simp [CA.StageOneOut.events]
    · rw [heq, s1EventsPre]
      simp only [List.append_assoc, List.cons_append, List.nil_append,
        cfa_analyze_check, cfa_check, cfa_progress_append]
      exact ih (i + 1) g slot (analyses ++ [a]) _ s
    · rw [heq]
      simp only [CA.StageOneOut.events, List.append_assoc, List.cons_append, List.nil_append,
        cfa_analyze_check, cfa_check, cfa_notify, cfa_gate]
    · rw [heq, s1EventsPre]
      simp only [List.append_assoc, List.cons_append, List.nil_append,
        cfa_analyze_check, cfa_check, cfa_notify, cfa_gate, cfa_progress_append]
      exact ih (i + 1) (g + 1) none (analyses ++ [a]) _ s

lemma caLoop_ret_status (env : CA.CAEnv) (budget : Option ℚ) (total : Nat) :
    ∀ rest i g slot analyses st st' tr,
      CA.caLoop env budget total rest i g slot analyses st = .ret st' tr →
      st'.status = CA.AnalysisStatus.cancelled := by
  intro rest
  induction rest with
  | nil =>
    intro i g slot analyses st st' tr h
    rw [CA.caLoop] at h
    cases h
  | cons f rest ih =>
    intro i g slot analyses st st' tr h
    rcases caLoop_step env budget total f rest i g slot analyses st with
      ⟨_, heq⟩ | ⟨e', _, heq⟩ | ⟨a, _, _, heq⟩ |
      ⟨a, obs, _, _, _, ⟨_, heq⟩ | ⟨ap, _, _, heq⟩⟩ <;>
      rw [heq] at h
    · cases h; rfl
    · cases h
    · obtain ⟨tr', h', _⟩ := pre_eq_ret h
      exact ih (i + 1) g slot (analyses ++ [a]) _ st' tr' h'
    · cases h; rfl
    · obtain ⟨tr', h', _⟩ := pre_eq_ret h
      exact ih (i + 1) (g + 1) none (analyses ++ [a]) _ st' tr' h'

lemma caLoop_next_len (env : CA.CAEnv) (budget : Option ℚ) (total : Nat) :
    ∀ rest i g slot analyses st a g' s' st' tr,
      CA.caLoop env budget total rest i g slot analyses st = .next a g' s' st' tr →
      a.length = analyses.length + rest.length := by
  intro rest
  induction rest with
  | nil =>
    intro i g slot analyses st a g' s' st' tr h
    rw [CA.caLoop] at h
    cases h
    simp
  | cons f rest ih =>
    intro i g slot analyses st a g' s' st' tr h
    rcases caLoop_step env budget total f rest i g slot analyses st with
      ⟨_, heq⟩ | ⟨e', _, heq⟩ | ⟨a0, _, _, heq⟩ |
      ⟨a0, obs, _, _, _, ⟨_, heq⟩ | ⟨ap, _, _, heq⟩⟩ <;>
      rw [heq] at h
    · cases h
    · cases h
    · obtain ⟨tr', h', _⟩ := pre_eq_next h
      have := ih (i + 1) g slot (analyses ++ [a0]) _ a g' s' st' tr' h'
      simp at this
      simp [this]
      omega
    · cases h
    · obtain ⟨tr', h', _⟩ := pre_eq_next h
      have := ih (i + 1) (g + 1) none (analyses ++ [a0]) _ a g' s' st' tr' h'
      simp at this
      simp [this]
      omega

@[simp] lemma cv_nil : CA.costValues [] = [] := rfl

@[simp] lemma cv_append (l1 l2 : List CA.AEvent) :
    CA.costValues (l1 ++ l2) = CA.costValues l1 ++ CA.costValues l2 :=
  List.filterMap_append l1 l2 _

@[simp] lemma cv_analyze (i : Nat) (c : ℚ) (t : List CA.AEvent) :
    CA.costValues (CA.AEvent.analyze i c :: t) = c :: CA.costValues t := rfl

@[simp] lemma cv_check (b : Bool) (t : List CA.AEvent) :
    CA.costValues (CA.AEvent.check b :: t) = CA.costValues t := rfl

@[simp] lemma cv_gate (g : Nat) (o : Option CA.BudgetApproval) (t : List CA.AEvent) :
    CA.costValues (CA.AEvent.gate g o :: t) = CA.costValues t := rfl

@[simp] lemma cv_progressE (i : Nat) (t : List CA.AEvent) :
    CA.costValues (CA.AEvent.progress i :: t) = CA.costValues t := rfl

@[simp] lemma cv_planGen (c : ℚ) (t : List CA.AEvent) :
    CA.costValues (CA.AEvent.planGen c :: t) = c :: CA.costValues t := rfl

@[simp] lemma cv_planGate (o : Option CA.PlanApproval) (t : List CA.AEvent) :
    CA.costValues (CA.AEvent.planGate o :: t) = CA.costValues t := rfl

@[simp] lemma cv_batch (j : Nat) (c : ℚ) (t : List CA.AEvent) :
    CA.costValues (CA.AEvent.batch j c :: t) = c :: CA.costValues t := rfl

@[simp] lemma cv_test (j : Nat) (b : Bool) (t : List CA.AEvent) :
    CA.costValues (CA.AEvent.test j b :: t) = CA.costValues t := rfl

@[simp] lemma cv_rollback (j : Nat) (t : List CA.AEvent) :
    CA.costValues (CA.AEvent.rollback j :: t) = CA.costValues t := rfl

@[simp] lemma cv_notify (t : List CA.AEvent) :
    CA.costValues (CA.AEvent.notifyEvt :: t) = CA.costValues t := rfl

@[simp] lemma cv_progress (i total : Nat) :
    CA.costValues (CA.progressEvents i total) = [] := by
  unfold CA.progressEvents
  split <;> rfl

lemma caLoop_cost (env : CA.CAEnv) (budget : Option ℚ) (total : Nat)
    (hA : ∀ i a, env.analyzeRes i = .ok a → 0 ≤ a.cost) :
    ∀ rest i g slot analyses st tail,
      List.Chain (· ≤ ·)
        (CA.caLoop env budget total rest i g slot analyses st).stOut.costSoFar tail →
      List.Chain (· ≤ ·) st.costSoFar
        (CA.costValues (CA.caLoop env budget total rest i g slot analyses st).events
          ++ tail) := by
  intro rest
  induction rest with
  | nil =>
    intro i g slot analyses st tail hq
    rw [CA.caLoop] at hq ⊢
    simpa [CA.StageOneOut.events, CA.StageOneOut.stOut] using hq
  | cons f rest ih =>
    intro i g slot analyses st tail hq
    rcases caLoop_step env budget total f rest i g slot analyses st with
      ⟨_, heq⟩ | ⟨e', _, heq⟩ | ⟨a, han, _, heq⟩ |
      ⟨a, obs, han, _, _, ⟨_, heq⟩ | ⟨ap, _, _, heq⟩⟩ <;>
      rw [heq] at hq ⊢
    · simpa [CA.StageOneOut.events, CA.StageOneOut.stOut] using hq
    · simpa [CA.StageOneOut.events, CA.StageOneOut.stOut] using hq
    · rw [s1EventsPre]
      rw [s1StOutPre] at hq
      simp only [List.append_assoc, List.cons_append, List.nil_append, cv_append,
        cv_analyze, cv_check, cv_progress, cv_nil]
      exact List.Chain.cons (le_add_of_nonneg_right (hA i a han))
        (ih (i + 1) g slot (analyses ++ [a]) _ tail hq)
    · simp only [CA.StageOneOut.events, CA.StageOneOut.stOut] at hq ⊢
      simp only [List.append_assoc, List.cons_append, List.nil_append, cv_append,
        cv_analyze, cv_check, cv_notify, cv_gate, cv_nil]
      exact List.Chain.cons (le_add_of_nonneg_right (hA i a han)) hq
    · rw [s1EventsPre]
      rw [s1StOutPre] at hq
      simp only [List.append_assoc, List.cons_append, List.nil_append, cv_append,
        cv_analyze, cv_check, cv_notify, cv_gate, cv_progress, cv_nil]
      refine List.Chain.cons (le_add_of_nonneg_right (hA i a han)) ?_
      have hrec := ih (i + 1) (g + 1) none (analyses ++ [a]) _ tail hq
      simpa using hrec

lemma caBatches_step (env : CA.CAEnv) (b : String) (rest : List String) (j : Nat)
    (st : CA.AnalysisState) :
    (∃ e, CA.caBatches env (b :: rest) j st = .errB e st [CA.AEvent.rollback j]) ∨
    (∃ c e, env.batchRes j = .ok c ∧
      CA.caBatches env (b :: rest) j st
        = .errB e { st with costSoFar := st.costSoFar + c, status := .testing }
            ([CA.AEvent.batch j (st.costSoFar + c)] ++ [CA.AEvent.rollback j])) ∨
    (∃ c, env.batchRes j = .ok c ∧ env.testRes j = .ok true ∧
      CA.caBatches env (b :: rest) j st
        = CA.BatchOut.pre
            ([CA.AEvent.batch j (st.costSoFar + c)] ++ [CA.AEvent.test j true])
            (CA.caBatches env rest (j + 1)
              { st with costSoFar := st.costSoFar + c, status := .refactoring })) ∨
    (∃ c e, env.batchRes j = .ok c ∧ env.testRes j = .ok false ∧
      CA.caBatches env (b :: rest) j st
        = .errB e { st with costSoFar := st.costSoFar + c, status := .testing }
            (([CA.AEvent.batch j (st.costSoFar + c)] ++ [CA.AEvent.test j false])
              ++ [CA.AEvent.rollback j, CA.AEvent.rollback j])) ∨
    (∃ c, env.batchRes j = .ok c ∧ env.testRes j = .ok false ∧
      CA.caBatches env (b :: rest) j st
        = CA.BatchOut.pre
            (([CA.AEvent.batch j (st.costSoFar + c)] ++ [CA.AEvent.test j false])
              ++ [CA.AEvent.rollback j, CA.AEvent.notifyEvt])
            (CA.caBatches env rest (j + 1)
              { st with costSoFar := st.costSoFar + c, status := .refactoring })) := by
  simp only [CA.caBatches]
  cases hbr : env.batchRes j
  · cases hrb : env.rollbackRes j
    · left; exact ⟨_, rfl⟩
    · left; exact ⟨_, rfl⟩
  · rename_i c
    cases hts : env.testRes j
    · cases hrb : env.rollbackRes j
      · right; left
        exact ⟨c, _, by first | rfl | assumption, rfl⟩
      · right; left
        exact ⟨c, _, by first | rfl | assumption, rfl⟩
    · rename_i passed
      cases passed
      · cases hrb : env.rollbackRes j
        · right; right; right; left
          exact ⟨c, _, by first | rfl | assumption, by first | rfl | assumption, rfl⟩
        · right; right; right; right
          exact ⟨c, by first | rfl | assumption, by first | rfl | assumption, rfl⟩
      · right; right; left
        exact ⟨c, by first | rfl | assumption, by first | rfl | assumption, rfl⟩

@[simp] lemma bEvents_done (st : CA.AnalysisState) (tr : List CA.AEvent) :
    (CA.BatchOut.done st tr).events = tr := rfl

@[simp] lemma bEvents_errB (e : String) (st : CA.AnalysisState) (tr : List CA.AEvent) :
    (CA.BatchOut.errB e st tr).events = tr := rfl

lemma caBatches_noGate (env : CA.CAEnv) :
    ∀ bs j st, CA.gateObs (CA.caBatches env bs j st).events = [] := by
  intro bs
  induction bs with
  | nil =>
    intro j st
    rfl
  | cons b rest ih =>
    intro j st
    rcases caBatches_step env b rest j st with
      ⟨e, heq⟩ | ⟨c, e, _, heq⟩ | ⟨c, _, _, heq⟩ | ⟨c, e, _, _, heq⟩ | ⟨c, _, _, heq⟩ <;>
      rw [heq] <;>
      simp only [bEvents_errB, bEvents_done, bEventsPre, List.append_assoc, List.cons_append,
        List.nil_append, gateObs_append, gateObs_batch, gateObs_test, gateObs_rollback,
        gateObs_notify, gateObs_nil] <;>
      try rfl
    · exact ih (j + 1) _
    · exact ih (j + 1) _

lemma caBatches_cfa (env : CA.CAEnv) :
    ∀ bs j st s,
      CA.checkFollowsAnalyze ((CA.caBatches env bs j st).events ++ s)
        = CA.checkFollowsAnalyze s := by
  intro bs
  induction bs with
  | nil =>
    intro j st s
    rfl
  | cons b rest ih =>
    intro j st s
    rcases caBatches_step env b rest j st with
      ⟨e, heq⟩ | ⟨c, e, _, heq⟩ | ⟨c, _, _, heq⟩ | ⟨c, e, _, _, heq⟩ | ⟨c, _, _, heq⟩ <;>
      rw [heq] <;>
      simp only [bEvents_errB, bEvents_done, bEventsPre, List.append_assoc, List.cons_append,
        List.nil_append, cfa_batch, cfa_test, cfa_rollback, cfa_notify] <;>
      try rfl
    · exact ih (j + 1) _ s
    · exact ih (j + 1) _ s

lemma caBatches_cost (env : CA.CAEnv)
    (hB : ∀ j c, env.batchRes j = .ok c → 0 ≤ c) :
    ∀ bs j st,
      List.Chain (· ≤ ·) st.costSoFar
        (CA.costValues (CA.caBatches env bs j st).events) := by
  intro bs
  induction bs with
  | nil =>
    intro j st
    exact List.Chain.nil
  | cons b rest ih =>
    intro j st
    rcases caBatches_step env b rest j st with
      ⟨e, heq⟩ | ⟨c, e, hc, heq⟩ | ⟨c, hc, _, heq⟩ | ⟨c, e, hc, _, heq⟩ | ⟨c, hc, _, heq⟩ <;>
      rw [heq] <;>
      simp only [bEvents_errB, bEvents_done, bEventsPre, List.append_assoc, List.cons_append,
        List.nil_append, cv_append, cv_batch, cv_test, cv_rollback, cv_notify, cv_nil]
    · exact List.Chain.nil
    · exact List.Chain.cons (le_add_of_nonneg_right (hB j c hc)) List.Chain.nil
    · exact List.Chain.cons (le_add_of_nonneg_right (hB j c hc))
        (ih (j + 1)
          { st with costSoFar := st.costSoFar + c, status := .refactoring })
    · exact List.Chain.cons (le_add_of_nonneg_right (hB j c hc)) List.Chain.nil
    · exact List.Chain.cons (le_add_of_nonneg_right (hB j c hc))
        (ih (j + 1)
          { st with costSoFar := st.costSoFar + c, status := .refactoring })

@[simp] lemma caComplete_trace (st : CA.AnalysisState) :
    (CA.caComplete st).trace = [CA.AEvent.notifyEvt] := rfl

@[simp] lemma caComplete_outcome (st : CA.AnalysisState) :
    (CA.caComplete st).outcome = .ok (CA.caComplete st).finalState := rfl

@[simp] lemma caComplete_status (st : CA.AnalysisState) :
    (CA.caComplete st).finalState.status = CA.AnalysisStatus.completed := rfl

@[simp] lemma caComplete_plan (st : CA.AnalysisState) :
    (CA.caComplete st).finalState.refactorPlan = st.refactorPlan := rfl

@[simp] lemma caFail_trace (e : String) (st : CA.AnalysisState) :
    (CA.caFail e st).trace = [] := rfl

@[simp] lemma caFail_outcome (e : String) (st : CA.AnalysisState) :
    (CA.caFail e st).outcome = .error e := rfl

@[simp] lemma caCancelled_trace (st : CA.AnalysisState) (stage : String) :
    (CA.caCancelled st stage).trace = [] := rfl

lemma caPlan_noGate (task : CA.CATask) (env : CA.CAEnv) (analyses : List CA.FileAnalysis)
    (st : CA.AnalysisState) :
    CA.gateObs (CA.caPlanStages task env analyses st).trace = [] := by
  unfold CA.caPlanStages
  cases task.targetImprovement
  · simp
  · dsimp only
    split
    · cases env.planRes
      · simp
      · rename_i plan
        dsimp only
        cases task.requiresApproval
        · simp only [Bool.false_eq_true, if_false]
          simp
        · simp only [if_true]
          cases env.planSignal
          · simp
          · rename_i d
            dsimp only
            cases hd : d.approved
            · simp only [Bool.false_eq_true, if_false]
              simp
            · simp only [if_true]
              rcases hb : CA.caBatches env plan.batches 0
                  { st with
                    status := CA.AnalysisStatus.refactoring
                    currentStage := "executing-refactor"
                    refactorPlan := some plan
                    costSoFar := st.costSoFar + 1/10 } with ⟨stD, trB⟩ | ⟨e, stE, trB⟩
              all_goals
                have hev : trB = (CA.caBatches env plan.batches 0
                    { st with
                      status := CA.AnalysisStatus.refactoring
                      currentStage := "executing-refactor"
                      refactorPlan := some plan
                      costSoFar := st.costSoFar + 1/10 }).events := by rw [hb]; rfl
              · dsimp only
                simp [hev, caBatches_noGate]
              · dsimp only
                simp [hev, caBatches_noGate]
    · simp

lemma caPlan_cfa (task : CA.CATask) (env : CA.CAEnv) (analyses : List CA.FileAnalysis)
    (st : CA.AnalysisState) (s : List CA.AEvent) :
    CA.checkFollowsAnalyze ((CA.caPlanStages task env analyses st).trace ++ s)
      = CA.checkFollowsAnalyze s := by
  unfold CA.caPlanStages
  cases task.targetImprovement
  · simp
  · dsimp only
    split
    · cases env.planRes
      · simp
      · rename_i plan
        dsimp only
        cases task.requiresApproval
        · simp only [Bool.false_eq_true, if_false]
          simp
        · simp only [if_true]
          cases env.planSignal
          · simp
          · rename_i d
            dsimp only
            cases hd : d.approved
            · simp only [Bool.false_eq_true, if_false]
              simp
            · simp only [if_true]
              rcases hb : CA.caBatches env plan.batches 0
                  { st with
                    status := CA.AnalysisStatus.refactoring
                    currentStage := "executing-refactor"
                    refactorPlan := some plan
                    costSoFar := st.costSoFar + 1/10 } with ⟨stD, trB⟩ | ⟨e, stE, trB⟩
              all_goals
                have hev : trB = (CA.caBatches env plan.batches 0
                    { st with
                      status := CA.AnalysisStatus.refactoring
                      currentStage := "executing-refactor"
                      refactorPlan := some plan
                      costSoFar := st.costSoFar + 1/10 }).events := by rw [hb]; rfl
              all_goals
                dsimp only
              all_goals
                simp only [caPreTrace, caComplete_trace, caFail_trace, List.append_assoc,
                  List.cons_append, List.nil_append, List.append_nil, cfa_planGen, cfa_notify,
                  cfa_planGate]
              all_goals
                rw [hev, caBatches_cfa]
              · simp
    · simp

lemma caPlan_cost (task : CA.CATask) (env : CA.CAEnv) (analyses : List CA.FileAnalysis)
    (st : CA.AnalysisState)
    (hB : ∀ j c, env.batchRes j = .ok c → 0 ≤ c) :
    List.Chain (· ≤ ·) st.costSoFar
      (CA.costValues (CA.caPlanStages task env analyses st).trace) := by
  unfold CA.caPlanStages
  cases task.targetImprovement
  · simp
  · dsimp only
    split
    · cases env.planRes
      · simp
      · rename_i plan
        dsimp only
        cases task.requiresApproval
        · simp only [Bool.false_eq_true, if_false]
          simp only [caPreTrace, caComplete_trace, List.append_assoc, List.cons_append,
            List.nil_append, cv_planGen, cv_notify, cv_nil]
          exact List.Chain.cons (le_add_of_nonneg_right (by norm_num)) List.Chain.nil
        · simp only [if_true]
          cases env.planSignal
          · dsimp only
            simp only [caPreTrace, caCancelled_trace, List.append_assoc, List.cons_append,
              List.nil_append, List.append_nil, cv_planGen, cv_notify, cv_planGate, cv_nil]
            exact List.Chain.cons (le_add_of_nonneg_right (by norm_num)) List.Chain.nil
          · rename_i d
            dsimp only
            cases hd : d.approved
            · simp only [Bool.false_eq_true, if_false]
              simp only [caPreTrace, caCancelled_trace, List.append_assoc, List.cons_append,
                List.nil_append, List.append_nil, cv_planGen, cv_notify, cv_planGate, cv_nil]
              exact List.Chain.cons (le_add_of_nonneg_right (by norm_num)) List.Chain.nil
            · simp only [if_true]
              rcases hb : CA.caBatches env plan.batches 0
                  { st with
                    status := CA.AnalysisStatus.refactoring
                    currentStage := "executing-refactor"
                    refactorPlan := some plan
                    costSoFar := st.costSoFar + 1/10 } with ⟨stD, trB⟩ | ⟨e, stE, trB⟩
              all_goals
                have hev : trB = (CA.caBatches env plan.batches 0
                    { st with
                      status := CA.AnalysisStatus.refactoring
                      currentStage := "executing-refactor"
                      refactorPlan := some plan
                      costSoFar := st.costSoFar + 1/10 }).events := by rw [hb]; rfl
              all_goals
                have hbc := caBatches_cost env hB plan.batches 0
                  { st with
                    status := CA.AnalysisStatus.refactoring
                    currentStage := "executing-refactor"
                    refactorPlan := some plan
                    costSoFar := st.costSoFar + 1/10 }
              all_goals
                rw [← hev] at hbc
              all_goals
                dsimp only
              all_goals
                simp only [caPreTrace, caComplete_trace, caFail_trace, List.append_assoc,
                  List.cons_append, List.nil_append, List.append_nil, cv_append, cv_planGen,
                  cv_notify, cv_planGate, cv_nil]
              all_goals
                refine List.Chain.cons (le_add_of_nonneg_right (by norm_num)) ?_
              all_goals
                simpa using hbc
    · simp

lemma caPlan_noRefactor (task : CA.CATask) (env : CA.CAEnv) (analyses : List CA.FileAnalysis)
    (st : CA.AnalysisState) (hra : task.requiresApproval = false) :
    ∀ e ∈ (CA.caPlanStages task env analyses st).trace, CA.isRefactorCall e = false := by
  unfold CA.caPlanStages
  cases task.targetImprovement
  · intro e he
    simp at he
    subst he
    rfl
  · dsimp only
    split
    · cases env.planRes
      · intro e he
        simp at he
      · rename_i plan
        dsimp only
        simp only [hra, Bool.false_eq_true, if_false]
        intro e he
        simp only [caPreTrace, caComplete_trace, List.cons_append, List.nil_append,
          List.mem_cons, List.not_mem_nil, or_false] at he
        rcases he with he | he <;> subst he <;> rfl
    · intro e he
      simp at he
      subst he
      rfl

lemma caPlan_ok (task : CA.CATask) (env : CA.CAEnv) (analyses : List CA.FileAnalysis)
    (st : CA.AnalysisState) (hra : task.requiresApproval = false) :
    ∀ stF, (CA.caPlanStages task env analyses st).outcome = .ok stF →
      stF.results = st.results ∧
      (0 < analyses.length → task.targetImprovement.isSome = true →
        stF.refactorPlan.isSome = true) := by
  unfold CA.caPlanStages
  cases hti0 : task.targetImprovement
  · dsimp only
    intro stF hok
    simp only [CA.caComplete] at hok
    injection hok with h
    subst h
    refine ⟨rfl, ?_⟩
    intro _ hti
    simp at hti
  · dsimp only
    split
    · cases env.planRes
      · dsimp only
        intro stF hok
        simp only [CA.caFail] at hok
        cases hok
      · rename_i hpos plan
        dsimp only
        simp only [hra, Bool.false_eq_true, if_false]
        intro stF hok
        simp only [caPreOutcome, CA.caComplete] at hok
        injection hok with h
        subst h
        exact ⟨rfl, fun _ _ => rfl⟩
    · rename_i hneg
      try dsimp only
      intro stF hok
      simp only [CA.caComplete] at hok
      injection hok with h
      subst h
      refine ⟨rfl, ?_⟩
      intro hlen _
      exact absurd hlen hneg

lemma ma_archOutcome (env : MA.MAEnv) :
    (MA.multiAgentCodebaseWorkflow env).archOutcome
      = (CA.codebaseAnalysisWorkflow MA.archTask env.archEnv).outcome := by
  simp only [MA.multiAgentCodebaseWorkflow]
  cases ha : (CA.codebaseAnalysisWorkflow MA.archTask env.archEnv).outcome <;>
    cases hs : (CA.codebaseAnalysisWorkflow MA.secTask env.secEnv).outcome <;>
    try dsimp only <;> try rfl
  split
  · cases (CA.codebaseAnalysisWorkflow MA.perfTask env.perfEnv).outcome <;> rfl
  · rfl

lemma ma_secOutcome (env : MA.MAEnv) :
    (MA.multiAgentCodebaseWorkflow env).secOutcome
      = (CA.codebaseAnalysisWorkflow MA.secTask env.secEnv).outcome := by
  simp only [MA.multiAgentCodebaseWorkflow]
  cases ha : (CA.codebaseAnalysisWorkflow MA.archTask env.archEnv).outcome <;>
    cases hs : (CA.codebaseAnalysisWorkflow MA.secTask env.secEnv).outcome <;>
    try dsimp only <;> try rfl
  split
  · cases (CA.codebaseAnalysisWorkflow MA.perfTask env.perfEnv).outcome <;> rfl
  · rfl

/-- C2 (code bug): Scenario D, 20 files with budget 5 and per-file cost
0.5.  The gate at file index 10 observes the approval with newBudget 10,
but the ceiling check keeps using the original task.budget of 5 (the
code never replaces it), so the very next file re-triggers the budget
gate (gate index 1, observing nothing) although cumulative cost 5.5 and
then 6 is at most 10; the run is cancelled at file index 11 with
filesAnalyzed 12 and costSoFar 6 instead of continuing to file 19. -/
theorem claim_C2 :
    CA.gateObs (CA.codebaseAnalysisWorkflow c2Task c2Env).trace
      = [(0, some ⟨true, some 10⟩), (1, none)] ∧
    (CA.codebaseAnalysisWorkflow c2Task c2Env).finalState.status
      = CA.AnalysisStatus.cancelled ∧
    (CA.codebaseAnalysisWorkflow c2Task c2Env).finalState.filesAnalyzed = 12 ∧
    (CA.codebaseAnalysisWorkflow c2Task c2Env).finalState.costSoFar = 6 := by
  refine ⟨?_, ?_, ?_, ?_⟩ <;> with_unfolding_all rfl

/-- C4: in multiAgentCodebaseWorkflow a failing child does not affect
its sibling: each child's own outcome is a function of its own
environment alone; the parent propagates a failure of a phase-1 child
(the first-settled failure when both fail, as Promise.all rejects), and
when both phase-1 children succeed it proceeds with their results,
launching the conditional performance child per its own policy. -/
theorem claim_C4 (e1 e2 env : MA.MAEnv) :
    (e1.secEnv = e2.secEnv →
      (MA.multiAgentCodebaseWorkflow e1).secOutcome
        = (MA.multiAgentCodebaseWorkflow e2).secOutcome) ∧
    (e1.archEnv = e2.archEnv →
      (MA.multiAgentCodebaseWorkflow e1).archOutcome
        = (MA.multiAgentCodebaseWorkflow e2).archOutcome) ∧
    (∀ ea es, (MA.multiAgentCodebaseWorkflow env).archOutcome = .error ea →
      (MA.multiAgentCodebaseWorkflow env).secOutcome = .error es →
      (MA.multiAgentCodebaseWorkflow env).outcome
        = .error (if env.archSettlesFirst then ea else es)) ∧
    (∀ ea sv, (MA.multiAgentCodebaseWorkflow env).archOutcome = .error ea →
      (MA.multiAgentCodebaseWorkflow env).secOutcome = .ok sv →
      (MA.multiAgentCodebaseWorkflow env).outcome = .error ea) ∧
    (∀ av es, (MA.multiAgentCodebaseWorkflow env).archOutcome = .ok av →
      (MA.multiAgentCodebaseWorkflow env).secOutcome = .error es →
      (MA.multiAgentCodebaseWorkflow env).outcome = .error es) ∧
    (∀ av sv, (MA.multiAgentCodebaseWorkflow env).archOutcome = .ok av →
      (MA.multiAgentCodebaseWorkflow env).secOutcome = .ok sv →
      ((MA.multiAgentCodebaseWorkflow env).perfOutcome = none ∧
        (MA.multiAgentCodebaseWorkflow env).outcome = .ok (av, sv, none)) ∨
      (∃ pv, (MA.multiAgentCodebaseWorkflow env).perfOutcome = some (.ok pv) ∧
        (MA.multiAgentCodebaseWorkflow env).outcome = .ok (av, sv, some pv)) ∨
      (∃ ep, (MA.multiAgentCodebaseWorkflow env).perfOutcome = some (.error ep) ∧
        (MA.multiAgentCodebaseWorkflow env).outcome = .error ep)) := by
  refine ⟨?_, ?_, ?_, ?_, ?_, ?_⟩
  · intro h
    rw [ma_secOutcome, ma_secOutcome, h]
  · intro h
    rw [ma_archOutcome, ma_archOutcome, h]
  · intro ea es hx hy
    rw [ma_archOutcome] at hx
    rw [ma_secOutcome] at hy
    simp [MA.multiAgentCodebaseWorkflow, hx, hy]
  · intro ea sv hx hy
    rw [ma_archOutcome] at hx
    rw [ma_secOutcome] at hy
    simp [MA.multiAgentCodebaseWorkflow, hx, hy]
  · intro av es hx hy
    rw [ma_archOutcome] at hx
    rw [ma_secOutcome] at hy
    simp [MA.multiAgentCodebaseWorkflow, hx, hy]
  · intro av sv hx hy
    rw [ma_archOutcome] at hx
    rw [ma_secOutcome] at hy
    simp only [MA.multiAgentCodebaseWorkflow, hx, hy]
    split
    · cases hp : (CA.codebaseAnalysisWorkflow MA.perfTask env.perfEnv).outcome <;> dsimp only
      · rename_i ep
        exact Or.inr (Or.inr ⟨ep, rfl, rfl⟩)
      · rename_i pv
        exact Or.inr (Or.inl ⟨pv, rfl, rfl⟩)
    · exact Or.inl ⟨rfl, rfl⟩

/-- Counterexample for C6 as stated: with one file costing 0.95 against
a ceiling of 1, the refactor-plan generation accrues 0.1 (pushing the
ledger to 1.05, over the ceiling) and the refactor batch accrues 0.1
more, yet no ceiling check follows either accrual: the
cost-then-check discipline read off the trace is violated, and the run
completes with costSoFar 1.15 above the ceiling 1. -/
theorem claim_C6_cx :
    CA.checksNotSkipped (CA.codebaseAnalysisWorkflow c6Task c6Env).trace false = false ∧
    (CA.codebaseAnalysisWorkflow c6Task c6Env).finalState.costSoFar = 23/20 ∧
    jsOrQ c6Task.budget 100 = 1 ∧
    (CA.codebaseAnalysisWorkflow c6Task c6Env).finalState.status
      = CA.AnalysisStatus.completed := by
  refine ⟨?_, ?_, ?_, ?_⟩ <;> with_unfolding_all rfl

/-- C6 (amended): the ledger check discipline the code actually has:
every analyzeFile cost accrual is immediately followed by a ceiling
check (the plan-generation and refactor-batch accruals are not
checked), and when every activity-reported cost is non-negative the
ledger costSoFar is monotonically non-decreasing along the execution,
starting from 0. -/
theorem claim_C6_amended (task : CA.CATask) (env : CA.CAEnv)
    (hA : ∀ i a, env.analyzeRes i = .ok a → 0 ≤ a.cost)
    (hB : ∀ j c, env.batchRes j = .ok c → 0 ≤ c) :
    CA.checkFollowsAnalyze (CA.codebaseAnalysisWorkflow task env).trace = true ∧
    List.Chain (· ≤ ·) 0 (CA.costValues (CA.codebaseAnalysisWorkflow task env).trace) := by
  rcases hL : CA.caLoop env task.budget task.files.length task.files 0 0 none []
      (CA.caStart task) with ⟨st', tr⟩ | ⟨e, st', tr⟩ | ⟨analyses, g, slot, st', tr⟩ <;>
    simp only [CA.codebaseAnalysisWorkflow, hL] <;> try dsimp only
  · constructor
    · have h1 := caLoop_cfa env task.budget task.files.length task.files 0 0 none []
        (CA.caStart task) []
      rw [hL] at h1
      simpa using h1
    · have h2 := caLoop_cost env task.budget task.files.length hA task.files 0 0 none []
        (CA.caStart task) [] (by rw [hL]; exact List.Chain.nil)
      rw [hL] at h2
      simpa [CA.caStart] using h2
  · constructor
    · have h1 := caLoop_cfa env task.budget task.files.length task.files 0 0 none []
        (CA.caStart task) []
      rw [hL] at h1
      simpa using h1
    · have h2 := caLoop_cost env task.budget task.files.length hA task.files 0 0 none []
        (CA.caStart task) [] (by rw [hL]; exact List.Chain.nil)
      rw [hL] at h2
      simpa [CA.caStart] using h2
  · constructor
    · have h1 := caLoop_cfa env task.budget task.files.length task.files 0 0 none []
        (CA.caStart task)
        ((CA.caPlanStages task env analyses { st' with results := analyses }).trace)
      rw [hL] at h1
      have h3 := caPlan_cfa task env analyses { st' with results := analyses } []
      rw [List.append_nil] at h3
      simp only [caPreTrace]
      simp only [CA.StageOneOut.events] at h1
      rw [h1, h3]
      rfl
    · have h3 := caPlan_cost task env analyses { st' with results := analyses } hB
      have h2 := caLoop_cost env task.budget task.files.length hA task.files 0 0 none []
        (CA.caStart task)
        (CA.costValues
          (CA.caPlanStages task env analyses { st' with results := analyses }).trace)
        (by rw [hL]; simpa using h3)
      rw [hL] at h2
      simp only [caPreTrace, cv_append]
      simpa [CA.caStart] using h2

/-- C9: every approval-gate invocation observes the decision freshly
delivered for that invocation, never a stale earlier one: with the
decision slot unset at the start of the execution, every researcher
review of mlTrainingWorkflow observes exactly the decision delivered to
that review (the slot having been cleared when the previous review
consumed its decision), and every budget gate of
codebaseAnalysisWorkflow observes exactly the approval delivered to
that gate. -/
theorem claim_C9 (cfg : ML.TrainingConfig) (resume : Option ML.CheckpointInfo)
    (env : ML.MLEnv) (task : CA.CATask) (caEnv : CA.CAEnv) :
    (∀ pr ∈ (ML.mlTrainingWorkflow cfg resume env).reviewObs,
      pr.2 = env.researcherAt pr.1) ∧
    (∀ pr ∈ CA.gateObs (CA.codebaseAnalysisWorkflow task caEnv).trace,
      pr.2 = caEnv.budgetSignalAt pr.1) := by
  constructor
  · rcases mlWorkflow_shape cfg resume env with ⟨_, _, ho⟩ | ⟨_, _, ho⟩
    · rw [ho]
      intro pr hpr
      simp at hpr
    · rw [ho]
      exact mlLoop_obs env cfg.checkpointInterval (cfg.epochs - ML.mlStart resume)
        (ML.mlStart resume) (ML.rngInit (ML.seedOf cfg env)) 0
        { ML.mlInitState resume with status := ML.TrainingStatus.training }
  · rcases hL : CA.caLoop caEnv task.budget task.files.length task.files 0 0 none []
        (CA.caStart task) with ⟨st', tr⟩ | ⟨e, st', tr⟩ | ⟨analyses, g, slot, st', tr⟩ <;>
      simp only [CA.codebaseAnalysisWorkflow, hL] <;> try dsimp only
    · have h1 := caLoop_gateObs caEnv task.budget task.files.length task.files 0 0 []
        (CA.caStart task)
      rw [hL] at h1
      simpa using h1
    · have h1 := caLoop_gateObs caEnv task.budget task.files.length task.files 0 0 []
        (CA.caStart task)
      rw [hL] at h1
      intro pr hpr
      simp only [caPreTrace, caFail_trace, List.append_nil] at hpr
      exact h1 pr hpr
    · have h1 := caLoop_gateObs caEnv task.budget task.files.length task.files 0 0 []
        (CA.caStart task)
      rw [hL] at h1
      intro pr hpr
      simp only [caPreTrace, gateObs_append, List.mem_append] at hpr
      rcases hpr with hpr | hpr
      · exact h1 pr hpr
      · rw [caPlan_noGate] at hpr
        simp at hpr

/-- Counterexample for C10 as stated: with targetImprovement set,
requiresApproval absent and an empty file list, the execution completes
with status completed but no refactor plan is ever generated or stored
(state.refactorPlan stays none), because plan generation additionally
requires at least one analysis result. -/
theorem claim_C10_cx :
    c10Task.targetImprovement.isSome = true ∧
    c10Task.requiresApproval = false ∧
    (CA.codebaseAnalysisWorkflow c10Task c10Env).outcome
      = Except.ok (CA.codebaseAnalysisWorkflow c10Task c10Env).finalState ∧
    (CA.codebaseAnalysisWorkflow c10Task c10Env).finalState.status
      = CA.AnalysisStatus.completed ∧
    (CA.codebaseAnalysisWorkflow c10Task c10Env).finalState.refactorPlan = none := by
  refine ⟨rfl, rfl, ?_, ?_, ?_⟩ <;> with_unfolding_all rfl

/-- C10 (amended): when targetImprovement is set but requiresApproval
is false or absent, no refactorBatch, runTests or rollbackBatch
activity is ever invoked, and every run that returns normally with
status completed and at least one analysis result has generated and
stored a refactor plan. -/
theorem claim_C10_amended (task : CA.CATask) (env : CA.CAEnv)
    (hti : task.targetImprovement.isSome = true)
    (hra : task.requiresApproval = false) :
    (CA.codebaseAnalysisWorkflow task env).trace.filter CA.isRefactorCall = [] ∧
    (∀ stF, (CA.codebaseAnalysisWorkflow task env).outcome = .ok stF →
      stF.status = CA.AnalysisStatus.completed →
      0 < stF.results.length →
      stF.refactorPlan.isSome = true) := by
  rcases hL : CA.caLoop env task.budget task.files.length task.files 0 0 none []
      (CA.caStart task) with ⟨st', tr⟩ | ⟨e, st', tr⟩ | ⟨analyses, g, slot, st', tr⟩ <;>
    simp only [CA.codebaseAnalysisWorkflow, hL] <;> try dsimp only
  · constructor
    · rw [List.filter_eq_nil]
      intro a ha
      have := caLoop_noRefactor env task.budget task.files.length task.files 0 0 none []
        (CA.caStart task) a (by rw [hL]; exact ha)
      simp [this]
    · intro stF hok hstat _
      injection hok with h
      have hcanc := caLoop_ret_status env task.budget task.files.length task.files 0 0 none []
        (CA.caStart task) st' tr hL
      rw [← h, hcanc] at hstat
      exact absurd hstat (by decide)
  · constructor
    · simp only [caPreTrace, caFail_trace, List.append_nil]
      rw [List.filter_eq_nil]
      intro a ha
      have := caLoop_noRefactor env task.budget task.files.length task.files 0 0 none []
        (CA.caStart task) a (by rw [hL]; exact ha)
      simp [this]
    · intro stF hok
      simp only [caPreOutcome, caFail_outcome] at hok
      cases hok
  · constructor
    · simp only [caPreTrace]
      rw [List.filter_eq_nil]
      intro a ha
      rcases List.mem_append.1 ha with ha | ha
      · have := caLoop_noRefactor env task.budget task.files.length task.files 0 0 none []
          (CA.caStart task) a (by rw [hL]; exact ha)
        simp [this]
      · have := caPlan_noRefactor task env analyses { st' with results := analyses } hra a ha
        simp [this]
    · intro stF hok hstat hlen
      simp only [caPreOutcome] at hok
      obtain ⟨hres, himp⟩ := caPlan_ok task env analyses { st' with results := analyses }
        hra stF hok
      refine himp ?_ hti
      rw [hres] at hlen
      simpa using hlen

/-- Witness for the amended C6 at a concrete run (the C6 counterexample
scenario): every accrued cost is non-negative, every analyzeFile accrual
is immediately followed by a ceiling check, and the ledger is
non-decreasing from 0. -/
theorem claim_C6_witness :
    CA.checkFollowsAnalyze (CA.codebaseAnalysisWorkflow c6Task c6Env).trace = true ∧
    List.Chain (· ≤ ·) 0 (CA.costValues (CA.codebaseAnalysisWorkflow c6Task c6Env).trace) :=
  claim_C6_amended c6Task c6Env
    (by intro i a h; injection h with h; rw [← h]; norm_num)
    (by intro j c h; injection h with h; rw [← h]; norm_num)

/-- Witness for the amended C10 at a concrete one-file run with
targetImprovement set and requiresApproval absent: no refactor activity
appears in the trace, and the completed run stored a refactor plan. -/
theorem claim_C10_witness :
    (CA.codebaseAnalysisWorkflow c10bTask c10bEnv).trace.filter CA.isRefactorCall = [] ∧
    (CA.codebaseAnalysisWorkflow c10bTask c10bEnv).finalState.refactorPlan.isSome = true :=
  ⟨(claim_C10_amended c10bTask c10bEnv rfl rfl).1,
   (claim_C10_amended c10bTask c10bEnv rfl rfl).2
     (CA.codebaseAnalysisWorkflow c10bTask c10bEnv).finalState
     (by with_unfolding_all rfl)
     (by with_unfolding_all rfl)
     (by
       have h : (CA.codebaseAnalysisWorkflow c10bTask c10bEnv).finalState.results.length
           = 1 := by with_unfolding_all rfl
       omega)⟩
